import Mathlib

/-!
Verification of the cozy-stack sharing engine and VFS against its
natural-language specification.

The Go source is shallowly embedded: pure functions become Lean functions;
stateful code becomes explicit state passing plus an explicit trace of the
performed operations; fallible external calls (CouchDB, object store,
network) are parameterised by environment records giving each call site its
outcome.  Machine integers are modelled as Int/Nat (no overflow is relevant
to the modelled code paths).  Byte strings (MD5 sums, file contents) are
modelled as lists of naturals; Go string slicing is on bytes, which for the
ASCII document ids used here coincides with the character-wise slicing used
below.
-/

namespace CozyStack

/-- Error values surfaced by the embedded code paths.  CouchDB errors carry
their HTTP status code (`couch 409` is a CouchDB conflict, `couch 404` is
not-found), mirroring the `couchdb` package's error classification used by
`IsConflictError` / `IsNotFoundError` / `IsCouchError`. -/
inductive Err where
  | errInvalidHash
  | errContentLengthMismatch
  | errSafety
  | errInvalidSharing
  | errInvalidURL
  | errInternalServerError
  | errMissingFileMetadata
  | errExist
  | errNotExist
  | errForbiddenDocMove
  | errNonAbsolutePath
  | errParentInTrash
  | errFileTooBig
  | couch (status : Nat)
  | other (msg : String)
deriving DecidableEq, Repr

/-- Whether an error is a CouchDB error (`couchdb.IsCouchError`). -/
def Err.isCouch : Err → Bool
  | .couch _ => true
  | _ => false

/-- Whether an error is a CouchDB conflict (`couchdb.IsConflictError`). -/
def Err.isConflict : Err → Bool
  | .couch status => status = 409
  | _ => false

/-! ## Go `path` package (used by `safeRenameDir` in `vfsafero`) -/

/-- Go's `strings.HasPrefix`, evaluated character-wise (the embedded inputs
are ASCII, where bytes and characters coincide). -/
def goHasPre (s pre : String) : Bool := pre.toList.isPrefixOf s.toList

/-- Split a character list on a separator (the behaviour of Go's
`strings.Split` for a one-character separator). -/
def splitOnChar (sep : Char) : List Char → List (List Char)
  | [] => [[]]
  | c :: cs =>
    let r := splitOnChar sep cs
    if c = sep then [] :: r
    else
      match r with
      | [] => [[c]]
      | h :: t => (c :: h) :: t

/-- Join path elements with slashes. -/
def joinSlash : List String → String
  | [] => ""
  | [s] => s
  | s :: rest => s ++ "/" ++ joinSlash rest

/-- Processing of one path element in Go's `path.Clean`: a `..` element pops
the last pushed element when one is available, is dropped at the root of a
rooted path, and is kept (accumulating at the front) in a relative path. -/
def cleanPush (rooted : Bool) (stack : List (List Char)) (c : List Char) : List (List Char) :=
  if c = ['.', '.'] then
    match stack with
    | [] => if rooted then [] else [['.', '.']]
    | s :: rest => if s = ['.', '.'] then c :: s :: rest else rest
  else c :: stack

/-- Functional transcription of Go's `path.Clean`: empty and `.` elements are
dropped, `..` elements are resolved lexically, a rooted path keeps its
leading slash, and the empty result is `.` (or `/` when rooted). -/
def goPathClean (p : String) : String :=
  if p = "" then "."
  else
    let rooted := goHasPre p "/"
    let comps := (splitOnChar '/' p.toList).filter (fun c => c ≠ [] && c ≠ ['.'])
    let parts := ((comps.foldl (cleanPush rooted) []).reverse).map List.asString
    if rooted then "/" ++ joinSlash parts
    else if parts.isEmpty then "." else joinSlash parts

/-- Go's `path.IsAbs`. -/
def goIsAbs (p : String) : Bool := goHasPre p "/"

/-- Result of `fs.Stat` on the destination path in `safeRenameDir`. -/
inductive StatResult where
  | found
  | notFound
  | statFail (e : Err)
deriving DecidableEq, Repr

/-- Environment for one `safeRenameDir` call: the outcome of `fs.Stat` on the
destination and of the final `fs.Rename`. -/
structure RenameDirEnv where
  stat : StatResult
  renameErr : Option Err
deriving Repr

/-- Outcome of `safeRenameDir`: the returned error (none on success) and
whether `fs.Rename` was reached. -/
structure RenameOutcome where
  res : Option Err
  renamed : Bool
deriving DecidableEq, Repr

/-- Embedding of `safeRenameDir` (vfsafero): clean both paths, require both
to be absolute, forbid moving a directory under its own descendant, fail if
the destination exists, and only then rename. -/
def safeRenameDir (env : RenameDirEnv) (oldpath0 newpath0 : String) : RenameOutcome :=
  let newpath := goPathClean newpath0
  let oldpath := goPathClean oldpath0
  if ¬ goIsAbs newpath ∨ ¬ goIsAbs oldpath then ⟨some .errNonAbsolutePath, false⟩
  else if goHasPre newpath (oldpath ++ "/") then ⟨some .errForbiddenDocMove, false⟩
  else
    match env.stat with
    | .found => ⟨some .errExist, false⟩
    | .statFail e => ⟨some e, false⟩
    | .notFound => ⟨env.renameErr, true⟩

/-! ## Swift v3 object layout (`model/vfs/vfsswift/impl_v3.go`) -/

/-- Go byte-slice `s[i:j]` (character-wise; the inputs are ASCII ids). -/
def goSlice (s : String) (i j : Nat) : String :=
  ((s.toList.drop i).take (j - i)).asString

/-- The container name prefix of the v3 swift layout. -/
def swiftV3ContainerPref : String := "cozy-v3-"

/-- Per-instance container name in the v3 layout:
`container: swiftV3ContainerPrefix + db.DBPrefix()` in `NewV3`. -/
def containerNameV3 (dbPref : String) : String := swiftV3ContainerPref ++ dbPref

/-- Embedding of `MakeObjectNameV3`: splits a 32-byte document id at bytes 22
and 27 and appends the 16-byte internal id; ill-sized inputs fall back to
`docID/internalID`. -/
def MakeObjectNameV3 (docID internalID : String) : String :=
  if docID.length ≠ 32 ∨ internalID.length ≠ 16 then docID ++ "/" ++ internalID
  else goSlice docID 0 22 ++ "/" ++ goSlice docID 22 27 ++ "/" ++
    goSlice docID 27 docID.length ++ "/" ++ internalID

/-- Follows the spec's words: the object name of a file is
`<docid[0:22]>/<docid[22:27]>/<docid[27:32]>/<internal-id>`. -/
def specObjectNameV3 (docID internalID : String) : String :=
  goSlice docID 0 22 ++ "/" ++ goSlice docID 22 27 ++ "/" ++
    goSlice docID 27 32 ++ "/" ++ internalID

/-! ## Data model of the sharing file uploader (`package sharing`) -/

/-- The fields of `vfs.FileDoc` consulted or mutated by the embedded sharing
code paths.  `safeMeta` bundles the fields copied wholesale by the external
helper `copySafeFieldsToFile` (tags, dates, cozy metadata, executable flag);
`refBy` is the `ReferencedBy` list.  The remaining payload fields are never
read by the embedded functions. -/
structure FileDoc where
  docID : String
  docRev : String
  docName : String
  dirID : String
  byteSize : Int
  md5sum : List Nat
  trashed : Bool
  internalID : String
  safeMeta : Nat
  refBy : List String
deriving DecidableEq, Repr

/-- A file of the modelled VFS: its document and its binary content. -/
structure VFile where
  doc : FileDoc
  content : List Nat
deriving DecidableEq, Repr

/-- The modelled VFS state: the set of stored files, keyed by document id. -/
structure VFSState where
  files : List VFile
deriving DecidableEq, Repr

/-- Lookup of a file by document id (`fs.FileByID`, with absence standing
for `os.ErrNotExist`). -/
def VFSState.fileByID (st : VFSState) (id : String) : Option VFile :=
  st.files.find? (fun f => f.doc.docID = id)

/-- Insert or replace the file with the given document's id. -/
def VFSState.setFile (st : VFSState) (f : VFile) : VFSState :=
  ⟨f :: st.files.filter (fun g => g.doc.docID ≠ f.doc.docID)⟩

/-- Replace only the document of the file stored under `id`, keeping its
content (the effect of a successful `UpdateFileDoc`). -/
def VFSState.updateDoc (st : VFSState) (id : String) (nd : FileDoc) : VFSState :=
  ⟨st.files.map (fun f => if f.doc.docID = id then ⟨nd, f.content⟩ else f)⟩

/-- Trace of the observable operations performed by the embedded sharing
receive path.  `createFile` records a committed content write (the Go
`CreateFile` handle followed by a successful `copyFileContent`);
`updateFileDoc` records a successful metadata-only document update. -/
inductive FsOp where
  | acquireLock (name : String)
  | readFile (id : String)
  | readSharedDoc (sid : String)
  | saveUploadKey (id : String)
  | createFile (newdoc : FileDoc) (old : Option FileDoc) (content : List Nat)
  | updateFileDoc (old : FileDoc) (new : FileDoc)
deriving DecidableEq, Repr

/-- The CouchDB `_revisions` structure: start generation plus revision ids,
newest first. -/
structure RevsStruct where
  start : Nat
  ids : List String
deriving DecidableEq, Repr

/-- Decimal digits of a natural number, most significant first; the first
argument is recursion fuel (any value above the digit count works). -/
def natDigitsAux : Nat → Nat → List Char
  | 0, _ => []
  | fuel + 1, n =>
    if n < 10 then [Char.ofNat (48 + n)]
    else natDigitsAux fuel (n / 10) ++ [Char.ofNat (48 + n % 10)]

/-- Decimal rendering of a natural number. -/
def natToStr (n : Nat) : String := (natDigitsAux (n + 1) n).asString

/-- Value of a list of decimal digit characters. -/
def digitsToNat (cs : List Char) : Nat :=
  cs.foldl (fun acc c => acc * 10 + (c.toNat - 48)) 0

/-- Modelled from the spec: `revsStructToChain` is missing from the sources;
per the spec's data model a revision is `<generation>-<opaque>` and the
`_revisions` structure lists ids newest first, so the chain from root to tip
prefixes each id with its decreasing generation and reverses the list. -/
def revsStructToChain (r : RevsStruct) : List String :=
  ((r.ids.enum.map (fun p => natToStr (r.start - p.1) ++ "-" ++ p.2))).reverse

/-- Modelled from the spec: `RevGeneration` is missing from the sources; the
spec defines `Generation(rev)` as the integer (decimal digits) before the
dash of `<generation>-<opaque>`. -/
def generation (rev : String) : Nat :=
  digitsToNat (rev.toList.takeWhile (fun c => c ≠ '-'))

/-- Conflict state of a local revision against a remote chain (spec §4.1). -/
inductive ConflictStatus where
  | noConflict
  | wonConflict
  | lostConflict
deriving DecidableEq, Repr

/-- Modelled from the spec: `detectConflict` is missing from the sources.
Per the spec, the state is `None` if the remote chain extends the local tip
(the chain contains it), `Won` if the local tip has a higher generation than
the remote chain's tip, and `Lost` otherwise. -/
def detectConflict (rev : String) (chain : List String) : ConflictStatus :=
  if chain.contains rev then .noConflict
  else if generation ((chain.getLastD "")) < generation rev then .wonConflict
  else .lostConflict

/-- Modelled from the spec: a revision tree is "an ordered set of chains"
(spec §3); a chain is a list of revisions from root to tip. -/
structure RevsTree where
  chains : List (List String)
deriving DecidableEq, Repr

/-- Modelled from the spec: `Find(tree, rev) → subtree | nil` returns the
subtree rooted at the given revision when the tree contains it (only its
presence is consulted by the embedded code); here it is the suffix of a
chain starting at that revision. -/
def RevsTree.find (t : RevsTree) (r : String) : Option (List String) :=
  t.chains.foldl
    (fun acc c =>
      match acc with
      | some s => some s
      | none => if c.contains r then some (c.dropWhile (fun x => x ≠ r)) else none)
    none

/-- Modelled from the spec: `conflictID(id, rev)` builds the id of a conflict
copy from the original id and a revision; the exact format is opaque, only
its shape (the id extended with the revision) matters here. -/
def conflictID (id rev : String) : String := id ++ "-" ++ rev

/-- Modelled from the spec: the disambiguated name of a conflict copy is
`<name> (conflict <timestamp>)<ext>`; the timestamp and extension handling
are abstracted into a fixed suffix. -/
def conflictName (name : String) : String := name ++ " (conflict)"

/-- Per-sharing replication state of one shared document
(`Infos[sharing-id]` of a `Shared` document). -/
structure SharedInfo where
  rule : Nat
  binary : Bool
  removed : Bool
  dissociated : Bool
deriving DecidableEq, Repr

/-- A `Shared` document: its id (`io.cozy.files/<docid>`), the revision tree
observed for it, and the per-sharing infos map. -/
structure SharedRef where
  sid : String
  revisions : RevsTree
  infos : List (String × SharedInfo)
deriving DecidableEq, Repr

/-- Lookup of the infos entry of one sharing. -/
def SharedRef.findInfo (ref : SharedRef) (sharingID : String) : Option SharedInfo :=
  (ref.infos.find? (fun p => p.1 = sharingID)).map (fun p => p.2)

/-- Lookup of a `Shared` document by id (`couchdb.GetDoc` on `io.cozy.shared`,
with absence standing for a CouchDB not-found error). -/
def findShared (docs : List SharedRef) (sid : String) : Option SharedRef :=
  docs.find? (fun r => r.sid = sid)

/-- A sharing rule, reduced to the fields the embedded code reads. -/
structure Rule where
  values : List String
deriving DecidableEq, Repr

/-- A sharing, reduced to the fields the embedded file-uploader code reads. -/
structure Sharing where
  sid : String
  nbFiles : Int
deriving DecidableEq, Repr

/-- The `{key}` payload answered by a phase-1 probe that requires a binary
upload. -/
structure KeyToUpload where
  key : String
deriving DecidableEq, Repr

/-- The file document sent for synchronization: the document plus its
`_revisions` chain. -/
structure FileDocWithRevisions where
  fileDoc : FileDoc
  revisions : RevsStruct
deriving DecidableEq, Repr

/-- The top revision described by the `_revisions` structure
(`target.Rev()`). -/
def FileDocWithRevisions.rev (t : FileDocWithRevisions) : String :=
  natToStr t.revisions.start ++ "-" ++ (t.revisions.ids.headD "")

/-! ## Embedding of the receive-side file synchronization (`part_003`) -/

/-- Environment of one `prepareFileWithAncestors` call: whether the sharing
has an explicit rule for the file, and the resolved directory ids produced
by `GetSharingDir` and by `DirByID`/`recreateParent`. -/
structure PrepareEnv where
  hasExplicitRule : Bool
  sharingDir : Except Err String
  parentDir : Except Err String
deriving Repr

/-- Embedding of `prepareFileWithAncestors`: returns the parent directory id
to use for the incoming file.  Case 1: an explicit rule shares the file
itself, keep the current parent.  Case 2: an empty incoming `dir_id` targets
the sharing directory.  Case 3: a changed `dir_id` is resolved (and the
parent recreated when missing). -/
def prepareFileWithAncestors (env : PrepareEnv) (curDirID dirID : String) : Except Err String :=
  if env.hasExplicitRule then .ok curDirID
  else if dirID = "" then env.sharingDir
  else if dirID ≠ curDirID then env.parentDir
  else .ok curDirID

/-- Environment of one `updateFileMetadata` call: the `ReferencedBy` list
built by the external `buildReferencedBy`, the parent resolution, and the
outcomes of the two `UpdateFileDoc` attempts with the
`resolveConflictSamePath` resolution between them. -/
structure UpdateMetaEnv where
  prepare : PrepareEnv
  refBy : List String
  update1 : Option Err
  samePath : Except Err (Option String)
  update2 : Option Err
deriving Repr

/-- Embedding of `updateFileMetadata`: applies a metadata-only change.  On a
lost conflict nothing is done; on a won conflict the indexer resolves the
revision tree (bookkeeping without VFS effect); then the document is renamed
and moved per the target, retrying once under a resolved name when the
update hits an existing path.  Only `updateFileDoc` operations are emitted:
the stored content is never touched. -/
def updateFileMetadata (env : UpdateMetaEnv) (target : FileDocWithRevisions)
    (cur : VFile) (st : VFSState) : Option Err × VFSState × List FsOp :=
  let chain := revsStructToChain target.revisions
  match detectConflict cur.doc.docRev chain with
  | .lostConflict => (none, st, [])
  | _ =>
    let olddoc := cur.doc
    let nd0 := { cur.doc with docName := target.fileDoc.docName }
    match prepareFileWithAncestors env.prepare nd0.dirID target.fileDoc.dirID with
    | .error e => (some e, st, [])
    | .ok dirID =>
      let nd1 := { nd0 with
        dirID := dirID, safeMeta := target.fileDoc.safeMeta, refBy := env.refBy }
      match env.update1 with
      | none => (none, st.updateDoc olddoc.docID nd1, [.updateFileDoc olddoc nd1])
      | some e =>
        if e = .errExist then
          match env.samePath with
          | .error e2 => (some e2, st, [])
          | .ok nameOpt =>
            let nd2 := match nameOpt with
              | some name => { nd1 with docName := name }
              | none => nd1
            match env.update2 with
            | none => (none, st.updateDoc olddoc.docID nd2, [.updateFileDoc olddoc nd2])
            | some e2 => (some e2, st, [])
        else (some e, st, [])

/-- Environment of one `SyncFile` call: the per-file lock outcome, the result
of `findRuleForNewFile`, the upload-key store save, and the metadata-update
environment. -/
structure SyncEnv where
  lockErr : Option Err
  ruleForNewFile : Option Rule
  saveKey : Except Err String
  meta : UpdateMetaEnv
deriving Repr

/-- Embedding of `createUploadKey`: saves the target in the upload store and
answers the key. -/
def createUploadKey (env : SyncEnv) (target : FileDocWithRevisions)
    (st : VFSState) (tr : List FsOp) :
    Except Err (Option KeyToUpload) × VFSState × List FsOp :=
  match env.saveKey with
  | .error e => (.error e, st, tr ++ [.saveUploadKey target.fileDoc.docID])
  | .ok k => (.ok (some ⟨k⟩), st, tr ++ [.saveUploadKey target.fileDoc.docID])

/-- Embedding of `SyncFile`, the phase-1 metadata probe: reject an empty MD5
before any other step; under the per-file lock, a missing local file needs a
rule (else `ErrSafety`) and an upload key; an existing file needs a `Shared`
entry for this sharing that is not `removed && !dissociated` (else
`ErrSafety`); a target revision already in the tree is an echo (no key,
nothing done); differing MD5s need an upload key; equal MD5s take a
metadata-only update. -/
def syncFile (s : Sharing) (env : SyncEnv) (sharedDocs : List SharedRef)
    (st : VFSState) (target : FileDocWithRevisions) :
    Except Err (Option KeyToUpload) × VFSState × List FsOp :=
  if target.fileDoc.md5sum = [] then (.error .errInvalidHash, st, [])
  else
    let sid := "io.cozy.files/" ++ target.fileDoc.docID
    match env.lockErr with
    | some e => (.error e, st, [])
    | none =>
      let tr := [FsOp.acquireLock ("shared/" ++ sid), FsOp.readFile target.fileDoc.docID]
      match st.fileByID target.fileDoc.docID with
      | none =>
        match env.ruleForNewFile with
        | none => (.error .errSafety, st, tr)
        | some _ => createUploadKey env target st tr
      | some cur =>
        let tr := tr ++ [FsOp.readSharedDoc sid]
        match findShared sharedDocs sid with
        | none => (.error .errSafety, st, tr)
        | some ref =>
          match ref.findInfo s.sid with
          | none => (.error .errSafety, st, tr)
          | some infos =>
            if infos.removed ∧ ¬ infos.dissociated then (.error .errSafety, st, tr)
            else if (ref.revisions.find target.fileDoc.docRev).isSome then (.ok none, st, tr)
            else if target.fileDoc.md5sum ≠ cur.doc.md5sum then
              createUploadKey env target st tr
            else
              let (res, st1, ops) := updateFileMetadata env.meta target cur st
              (match res with
               | none => .ok none
               | some e => .error e, st1, tr ++ ops)

/-- Environment of one `uploadLostConflict` call: the outcomes of the
conflict-copy `CreateFile` and of `copyFileContent`. -/
structure LostEnv where
  lostCreate : Option Err
  lostCopy : Option Err
deriving Repr

/-- Embedding of `uploadLostConflict`: the uploaded version goes to a new
file with id `conflictID(id, target.Rev())` and a disambiguated name; when
that conflict copy already exists the body is discarded. -/
def uploadLostConflict (env : LostEnv) (st : VFSState)
    (target : FileDocWithRevisions) (newdoc : FileDoc) (body : List Nat) :
    Option Err × VFSState × List FsOp :=
  let rev := target.rev
  let nd := { newdoc with docID := conflictID newdoc.docID rev }
  match st.fileByID nd.docID with
  | some _ => (none, st, [])
  | none =>
    let nd := { nd with docName := conflictName nd.docName, docRev := "" }
    match env.lostCreate with
    | some e => (some e, st, [])
    | none =>
      match env.lostCopy with
      | some e => (some e, st, [])
      | none => (none, st.setFile ⟨nd, body⟩, [.createFile nd none body])

/-- Environment of one `uploadWonConflict` call: the outcomes of `OpenFile`
on the source, of the conflict-copy `CreateFile`, and of the content copy. -/
structure WonEnv where
  wonOpen : Option Err
  wonCreate : Option Err
  wonCopy : Option Err
deriving Repr

/-- Embedding of `uploadWonConflict`: the current local file is copied aside
to a new file with id `conflictID(id, src.Rev())` and a disambiguated name;
when that copy already exists nothing is done (the `FileByID` error is nil
and is returned as-is). -/
def uploadWonConflict (env : WonEnv) (st : VFSState) (src : VFile) :
    Option Err × VFSState × List FsOp :=
  let rev := src.doc.docRev
  let dst0 := { src.doc with docID := conflictID src.doc.docID rev }
  match st.fileByID dst0.docID with
  | some _ => (none, st, [])
  | none =>
    let dst := { dst0 with docName := conflictName dst0.docName }
    match env.wonOpen with
    | some e => (some e, st, [])
    | none =>
      match env.wonCreate with
      | some e => (some e, st, [])
      | none =>
        match env.wonCopy with
        | some e => (some e, st, [])
        | none => (none, st.setFile ⟨dst, src.content⟩, [.createFile dst none src.content])

/-- Environment of one `UploadExistingFile` call. -/
structure UploadExistingEnv where
  refBy : List String
  prepare : PrepareEnv
  createEasy : Option Err
  copyEasy : Option Err
  createTmp : Option Err
  copyTmp : Option Err
  update1 : Option Err
  samePath : Except Err (Option String)
  update2 : Option Err
  lost : LostEnv
  won : WonEnv
deriving Repr

/-- The tail of `UploadExistingFile` after the conflict dispatch: when only
the content changed (same name and parent), the content is written in place;
otherwise the content is first written to a document that keeps the old name
and parent, and only after that write succeeds is the document updated to
the new name and parent, retrying once under a resolved name when the
update hits an existing path. -/
def uploadExistingAccept (env : UploadExistingEnv) (olddoc nd1 : FileDoc)
    (body : List Nat) (st1 : VFSState) (tr1 : List FsOp) :
    Option Err × VFSState × List FsOp :=
  if nd1.docName = olddoc.docName ∧ nd1.dirID = olddoc.dirID then
    match env.createEasy with
    | some e => (some e, st1, tr1)
    | none =>
      match env.copyEasy with
      | some e => (some e, st1, tr1)
      | none =>
        (none, st1.setFile ⟨nd1, body⟩, tr1 ++ [.createFile nd1 (some olddoc) body])
  else
    let tmpdoc := { nd1 with docName := olddoc.docName, dirID := olddoc.dirID }
    match env.createTmp with
    | some e => (some e, st1, tr1)
    | none =>
      match env.copyTmp with
      | some e => (some e, st1, tr1)
      | none =>
        let st2 := st1.setFile ⟨tmpdoc, body⟩
        let tr2 := tr1 ++ [FsOp.createFile tmpdoc (some olddoc) body]
        match env.update1 with
        | none =>
          (none, st2.updateDoc tmpdoc.docID nd1, tr2 ++ [.updateFileDoc tmpdoc nd1])
        | some e =>
          if e = .errExist then
            match env.samePath with
            | .error e2 => (some e2, st2, tr2)
            | .ok nameOpt =>
              let nd2 := match nameOpt with
                | some name => { nd1 with docName := name }
                | none => nd1
              match env.update2 with
              | none =>
                (none, st2.updateDoc tmpdoc.docID nd2,
                  tr2 ++ [.updateFileDoc tmpdoc nd2])
              | some e2 => (some e2, st2, tr2)
          else (some e, st2, tr2)

/-- Embedding of `UploadExistingFile`, receiving new content for an existing
file: require a `Shared` entry for this sharing that is not
`removed && !dissociated` (else `ErrSafety`); mutate the local document to
the target's name, parent, size and MD5; dispatch on the conflict state
(lost: the upload goes to a conflict copy; won: the local file is first
copied aside); then either write the content in place when the path is
unchanged, or write the content under the old name and parent first and
rename the document afterwards, retrying the rename once under a resolved
name on a path conflict. -/
def uploadExistingFile (s : Sharing) (env : UploadExistingEnv)
    (sharedDocs : List SharedRef) (st : VFSState)
    (target : FileDocWithRevisions) (current : VFile) (body : List Nat) :
    Option Err × VFSState × List FsOp :=
  match findShared sharedDocs ("io.cozy.files/" ++ target.fileDoc.docID) with
  | none => (some .errSafety, st, [])
  | some ref =>
    let olddoc := current.doc
    match ref.findInfo s.sid with
    | none => (some .errSafety, st, [])
    | some infos =>
      if infos.removed ∧ ¬ infos.dissociated then (some .errSafety, st, [])
      else
        let nd0 := { current.doc with
          refBy := env.refBy, safeMeta := target.fileDoc.safeMeta,
          docName := target.fileDoc.docName }
        match prepareFileWithAncestors env.prepare nd0.dirID target.fileDoc.dirID with
        | .error e => (some e, st, [])
        | .ok dirID =>
          let nd1 := { nd0 with
            dirID := dirID, byteSize := target.fileDoc.byteSize,
            md5sum := target.fileDoc.md5sum }
          let chain := revsStructToChain target.revisions
          match detectConflict nd1.docRev chain with
          | .lostConflict => uploadLostConflict env.lost st target nd1 body
          | conflict =>
            let step :=
              if conflict = .wonConflict then uploadWonConflict env.won st current
              else (none, st, [])
            match step with
            | (some e, st1, tr1) => (some e, st1, tr1)
            | (none, st1, tr1) => uploadExistingAccept env olddoc nd1 body st1 tr1

/-- Environment of one `UploadNewFile` call. -/
structure UploadNewEnv where
  ruleForNewFile : Option (Rule × Nat)
  parentByDirID : Except Err String
  cleanShortcutID : String
  parentByShortcut : Except Err String
  ensureSharedWithMeDir : Except Err String
  sharingDir : Except Err String
  couchSeesDeleted : Bool
  newFileDocErr : Option Err
  create1 : Option Err
  samePath : Except Err (Option String)
  create2 : Option Err
  copyRes : Option Err
deriving Repr

/-- Embedding of `UploadNewFile`, receiving a brand-new file: a file matching
no sharing rule is refused with `ErrSafety`; the parent directory is the
target's (recreated when missing), or for the file named by the rule itself
the shared-with-me directory, or else the sharing directory; a file CouchDB
still sees as deleted gets a bumped revision (indexer bookkeeping); the file
document is built from the target and created, retrying once under a
resolved name on a path conflict, and the body is copied in. -/
def uploadNewFile (s : Sharing) (env : UploadNewEnv) (st : VFSState)
    (target : FileDocWithRevisions) (body : List Nat) :
    Option Err × VFSState × List FsOp :=
  match env.ruleForNewFile with
  | none => (some .errSafety, st, [])
  | some (rule, _) =>
    let parentRes :=
      if target.fileDoc.dirID ≠ "" then env.parentByDirID
      else if target.fileDoc.docID = rule.values.headD "" then
        (if env.cleanShortcutID ≠ "" then env.parentByShortcut
         else env.ensureSharedWithMeDir)
      else env.sharingDir
    match parentRes with
    | .error e => (some e, st, [])
    | .ok parentID =>
      match env.newFileDocErr with
      | some e => (some e, st, [])
      | none =>
        let newdoc : FileDoc :=
          { docID := target.fileDoc.docID, docRev := "",
            docName := target.fileDoc.docName, dirID := parentID,
            byteSize := target.fileDoc.byteSize, md5sum := target.fileDoc.md5sum,
            trashed := false, internalID := "",
            safeMeta := target.fileDoc.safeMeta, refBy := target.fileDoc.refBy }
        match env.create1 with
        | none =>
          match env.copyRes with
          | some e => (some e, st, [])
          | none => (none, st.setFile ⟨newdoc, body⟩, [.createFile newdoc none body])
        | some e =>
          if e = .errExist then
            match env.samePath with
            | .error e2 => (some e2, st, [])
            | .ok nameOpt =>
              let nd2 := match nameOpt with
                | some name => { newdoc with docName := name }
                | none => newdoc
              match env.create2 with
              | none =>
                match env.copyRes with
                | some e2 => (some e2, st, [])
                | none => (none, st.setFile ⟨nd2, body⟩, [.createFile nd2 none body])
              | some e2 => (some e2, st, [])
          else (some e, st, [])

/-! ## Embedding of the send-side upload of one file (`uploadFile`) -/

/-- The requests `uploadFile` makes to the peer. -/
inductive ReqEvent where
  | putMetadata (path : String)
  | putContent (path : String)
deriving DecidableEq, Repr

/-- Response of the phase-1 metadata request, after the 4xx token-refresh
retry has been resolved: a transport or HTTP error (with the 5xx class
already mapped by the caller), a `204 No Content`, or a `200 OK` carrying
the upload key. -/
inductive MetaResp where
  | reqFail (is5xx : Bool) (e : Err)
  | noContent
  | withKey (decodeErr : Option Err) (key : String)
deriving Repr

/-- Environment of one `uploadFile` call. -/
structure UploadFileEnv where
  credsFound : Bool
  urlErr : Option Err
  xoredID : String
  metaResp : MetaResp
  fileByIDErr : Option Err
  openErr : Option Err
  contentFail : Option (Bool × Err)
deriving Repr

/-- Embedding of `uploadFile` (send side): a trashed file is skipped outright
(its trash status travels via the replication protocol); otherwise the
phase-1 metadata request is sent, a 204 ends the job, and a key answer makes
the file content be read and pushed in a phase-2 request. -/
def uploadFile (s : Sharing) (env : UploadFileEnv) (file : FileDoc) :
    Option Err × List ReqEvent :=
  if file.trashed then (none, [])
  else if ¬ env.credsFound then (some .errInvalidSharing, [])
  else
    match env.urlErr with
    | some e => (some e, [])
    | none =>
      let metaPath := "/sharings/" ++ s.sid ++ "/io.cozy.files/" ++ env.xoredID ++ "/metadata"
      let evs := [ReqEvent.putMetadata metaPath]
      match env.metaResp with
      | .reqFail is5xx e => (some (if is5xx then .errInternalServerError else e), evs)
      | .noContent => (none, evs)
      | .withKey decodeErr key =>
        match decodeErr with
        | some e => (some e, evs)
        | none =>
          match env.fileByIDErr with
          | some e => (some e, evs)
          | none =>
            match env.openErr with
            | some e => (some e, evs)
            | none =>
              let evs := evs ++ [ReqEvent.putContent ("/sharings/" ++ s.sid ++ "/io.cozy.files/" ++ key)]
              match env.contentFail with
              | some (is5xx, e) => (some (if is5xx then .errInternalServerError else e), evs)
              | none => (none, evs)

/-! ## Embedding of the afero file-creation handle (`part_004`) -/

/-- The fields of `aferoFileCreation` consulted by `Write` and `Close`:
the declared MD5 and byte size of the new document, its id and the old
document (if the creation replaces content), the written counter `w`, the
declared size `size` (−1 when unknown), the limits, the bytes fed to the
MD5 hash, and the sticky write error. -/
structure AferoFileCreation where
  newdocMD5 : Option (List Nat)
  newdocByteSize : Int
  newdocID : String
  olddoc : Option FileDoc
  w : Int
  size : Int
  maxsize : Int
  capsize : Int
  hashed : List Nat
  werr : Option Err
deriving Repr

/-- Object-store-and-index state relevant to one file creation: whether the
temporary object still exists, and the set of file ids present in the
index. -/
structure AferoState where
  tmpExists : Bool
  indexEntries : List String
deriving DecidableEq, Repr

/-- Embedding of `aferoFileCreation.Write`: a failed underlying write sets
the sticky error; the written counter is bumped and checked against the
maximum file size and the declared size; only then are the bytes fed to the
MD5 hash.  The metadata extractor is not modelled (it only feeds fields
outside the modelled document). -/
def aferoWrite (f : AferoFileCreation) (p : List Nat) (n : Nat) (writeErr : Option Err) :
    (Nat × Option Err) × AferoFileCreation :=
  match writeErr with
  | some e => ((n, some e), { f with werr := some e })
  | none =>
    let f := { f with w := f.w + n }
    if (0 : Int) ≤ f.maxsize ∧ f.w > f.maxsize then
      ((n, some .errFileTooBig), { f with werr := some .errFileTooBig })
    else if (0 : Int) ≤ f.size ∧ f.w > f.size then
      ((n, some .errContentLengthMismatch), { f with werr := some .errContentLengthMismatch })
    else ((n, none), { f with hashed := f.hashed ++ p })

/-- Environment of one `aferoFileCreation.Close` call: the outcomes of the
underlying file close, the VFS lock, the uniqueness re-check, the path
computation, the index write, and the renames of the version snapshot and
of the temporary object. -/
structure CloseEnv where
  closeErr : Option Err
  lockErr : Option Err
  childExists : Except Err Bool
  newpath : String
  filePathErr : Option Err
  indexErr : Option Err
  renameToVersionOk : Bool
  renameTmpErr : Option Err
deriving Repr

/-- The trash directory name (`vfs.TrashDirName`). -/
def trashDirName : String := "/.cozy_trash"

/-- Core of `aferoFileCreation.Close`, without the deferred cleanup: checks
the sticky write error, the MD5 (`InvalidHash`) and the byte size
(`ContentLengthMismatch`); under the exclusive lock re-checks name
uniqueness for a new file, rejects a path inside the trash, writes the index
document (update for an existing file, create for a new one), and moves the
temporary object into place.  `md5fn` is the hash function computing the
MD5 of the bytes written. -/
def aferoCloseCore (md5fn : List Nat → List Nat) (f : AferoFileCreation)
    (env : CloseEnv) (st : AferoState) : Option Err × AferoState :=
  let f1 := match env.closeErr with
    | some e => if f.werr = none then { f with werr := some e } else f
    | none => f
  match f1.werr with
  | some e => (some e, st)
  | none =>
    let md5sum := md5fn f.hashed
    let declaredMD5 := match f.newdocMD5 with
      | none => md5sum
      | some m => m
    if declaredMD5 ≠ md5sum then (some .errInvalidHash, st)
    else
      let byteSize := if f.size < 0 then f.w else f.newdocByteSize
      if byteSize ≠ f.w then (some .errContentLengthMismatch, st)
      else
        match env.lockErr with
        | some e => (some e, st)
        | none =>
          let uniq : Option Err :=
            match f.olddoc with
            | some _ => none
            | none =>
              match env.childExists with
              | .error e => some e
              | .ok true => some .errExist
              | .ok false => none
          match uniq with
          | some e => (some e, st)
          | none =>
            match env.filePathErr with
            | some e => (some e, st)
            | none =>
              if goHasPre env.newpath (trashDirName ++ "/") then
                (some .errParentInTrash, st)
              else
                match env.indexErr with
                | some e => (some e, st)
                | none =>
                  let st1 := match f.olddoc with
                    | some _ => st
                    | none => { st with indexEntries := f.newdocID :: st.indexEntries }
                  match env.renameTmpErr with
                  | some e => (some e, st1)
                  | none => (none, { st1 with tmpExists := false })

/-- Embedding of `aferoFileCreation.Close` with its deferred cleanup: any
error removes the temporary object, and for a new file (no old document)
whose error is not a CouchDB error, deletes the file's index document. -/
def aferoClose (md5fn : List Nat → List Nat) (f : AferoFileCreation)
    (env : CloseEnv) (st : AferoState) : Option Err × AferoState :=
  match aferoCloseCore md5fn f env st with
  | (none, st1) => (none, st1)
  | (some e, st1) =>
    let st2 := { st1 with tmpExists := false }
    let st3 :=
      if f.olddoc = none ∧ ¬ e.isCouch then
        { st2 with indexEntries := st2.indexEntries.erase f.newdocID }
      else st2
    (some e, st3)

/-! ## Embedding of `Sharing.RevokeByNotification` (notification_center.go) -/

/-- Status of a sharing member. -/
inductive MemberStatus where
  | owner
  | mailNotSent
  | pending
  | ready
  | revoked
deriving DecidableEq, Repr

/-- A sharing member, reduced to the fields read by the revocation path. -/
structure Member where
  instanceURL : String
  status : MemberStatus
deriving DecidableEq, Repr

/-- The sharing document fields mutated by the revocation path. -/
structure SharingDoc where
  sid : String
  owner : Bool
  active : Bool
  triggerIDs : List String
  credentialsCount : Nat
  members : List Member
deriving DecidableEq, Repr

/-- Outcome of one `couchdb.UpdateDoc` attempt. -/
inductive UpdateOutcome where
  | ok
  | conflictErr
  | otherFail (e : Err)
deriving DecidableEq, Repr

/-- Environment of one `RevokeByNotification` call: the outcomes of the
preliminary cleanup steps, the rule flags choosing the optional ones, and
the outcome of each `UpdateDoc` attempt and each conflict reload. -/
structure RevokeEnv where
  deleteOAuthClient : Option Err
  removeTriggers : Option Err
  clearLastSeq : Option Err
  removeSharedRefs : Option Err
  hasFilesRuleNoMime : Bool
  removeSharingDir : Option Err
  hasBitwardenOrgRule : Bool
  removeBitwardenOrg : Option Err
  upd : Nat → UpdateOutcome
  reloadErr : Nat → Option Err
  reloadDoc : Nat → SharingDoc

/-- The member-roster mutation inside the revocation loop: the first member
after the owner with a non-empty instance URL is marked revoked. -/
def markFirstRevoked : Nat → List Member → List Member
  | _, [] => []
  | 0, m :: rest => m :: markFirstRevoked 1 rest
  | Nat.succ i, m :: rest =>
    if m.instanceURL ≠ "" then { m with status := .revoked } :: rest
    else m :: markFirstRevoked (i + 2) rest

/-- The sharing-document mutation applied on each iteration of the
revocation loop: triggers and credentials are dropped, the sharing is
deactivated, and the peer member is marked revoked. -/
def mutateForRevoke (s : SharingDoc) : SharingDoc :=
  { s with triggerIDs := [], credentialsCount := 0, active := false,
           members := markFirstRevoked 0 s.members }

/-- The bounded conflict-retry loop of `RevokeByNotification`
(`for i := 0; i < 3; i++`): each iteration mutates the document and calls
`UpdateDoc`; success or a non-conflict error stops the loop; a CouchDB
conflict reloads the document and retries; a failed reload also stops the
loop.  `fuel` is `3 - i`.  Returns the indices of the attempts made and the
final document. -/
def revokeUpdateLoop (env : RevokeEnv) : Nat → Nat → SharingDoc → List Nat × SharingDoc
  | 0, _, s => ([], s)
  | fuel + 1, i, s =>
    let s1 := mutateForRevoke s
    match env.upd i with
    | .ok => ([i], s1)
    | .otherFail _ => ([i], s1)
    | .conflictErr =>
      match env.reloadErr i with
      | some _ => ([i], s1)
      | none =>
        let r := revokeUpdateLoop env fuel (i + 1) (env.reloadDoc i)
        (i :: r.1, r.2)

/-- Result of `RevokeByNotification`: the returned error, the indices of the
`UpdateDoc` attempts made, and the final sharing document. -/
structure RevokeResult where
  res : Option Err
  attempts : List Nat
  final : SharingDoc

/-- Embedding of `Sharing.RevokeByNotification` (recipient side, after the
peer revoked): rejected on the owner side; then OAuth client deletion,
trigger removal, sequence-number cleanup, shared-refs sweep, and the
optional sharing-directory and bitwarden-organization removals, each
aborting on error; finally the document update loop with at most three
attempts.  The loop's `err` variable is shadowed, so the function returns
nil once the loop is reached (faithful to the source). -/
def revokeByNotification (env : RevokeEnv) (s : SharingDoc) : RevokeResult :=
  if s.owner then ⟨some .errInvalidSharing, [], s⟩
  else
    match env.deleteOAuthClient with
    | some e => ⟨some e, [], s⟩
    | none =>
      match env.removeTriggers with
      | some e => ⟨some e, [], s⟩
      | none =>
        match env.clearLastSeq with
        | some e => ⟨some e, [], s⟩
        | none =>
          match env.removeSharedRefs with
          | some e => ⟨some e, [], s⟩
          | none =>
            let dirStep : Option Err :=
              if env.hasFilesRuleNoMime then env.removeSharingDir else none
            match dirStep with
            | some e => ⟨some e, [], s⟩
            | none =>
              let bwStep : Option Err :=
                if env.hasBitwardenOrgRule then env.removeBitwardenOrg else none
              match bwStep with
              | some e => ⟨some e, [], s⟩
              | none =>
                let r := revokeUpdateLoop env 3 0 s
                ⟨none, r.1, r.2⟩

/-! ## Sample values used by concrete witnesses -/

/-- A sample incoming file document (id `f1`, revision `1-a`). -/
def wDoc : FileDoc :=
  { docID := "f1", docRev := "1-a", docName := "hello.txt", dirID := "dir",
    byteSize := 2, md5sum := [7, 7], trashed := false, internalID := "",
    safeMeta := 0, refBy := [] }

/-- A sample synchronization target for `wDoc` at revision `2-b`. -/
def wTarget : FileDocWithRevisions := ⟨{ wDoc with docRev := "2-b" }, ⟨2, ["b", "a"]⟩⟩

/-- The sample local file: `wDoc` with content `[9, 9]`. -/
def wCur : VFile := ⟨wDoc, [9, 9]⟩

/-- The sample VFS state holding only `wCur`. -/
def wSt : VFSState := ⟨[wCur]⟩

/-- The sample sharing (id `S`). -/
def wSharing : Sharing := ⟨"S", 0⟩

/-- A sample `Shared` document for `wDoc` whose tree contains `2-b`. -/
def wRefEcho : SharedRef :=
  ⟨"io.cozy.files/f1", ⟨[["1-a", "2-b"]]⟩, [("S", ⟨0, true, false, false⟩)]⟩

/-- A sample `Shared` document for `wDoc` whose tree only knows `1-a`. -/
def wRefKnown : SharedRef :=
  ⟨"io.cozy.files/f1", ⟨[["1-a"]]⟩, [("S", ⟨0, true, false, false⟩)]⟩

/-- A sample `Shared` document marked removed and not dissociated. -/
def wRefRemoved : SharedRef :=
  ⟨"io.cozy.files/f1", ⟨[["1-a"]]⟩, [("S", ⟨0, true, true, false⟩)]⟩

/-- A sample metadata-update environment where every external call
succeeds. -/
def wMetaEnv : UpdateMetaEnv := ⟨⟨false, .ok "share-dir", .ok "parent"⟩, [], none, .ok none, none⟩

/-- A sample `SyncFile` environment where every external call succeeds. -/
def wSyncEnv : SyncEnv := ⟨none, some ⟨["f1"]⟩, .ok "KEY", wMetaEnv⟩

/-- A sample `UploadExistingFile` environment where every external call
succeeds. -/
def wUpEnv : UploadExistingEnv :=
  ⟨[], ⟨false, .ok "share-dir", .ok "parent"⟩, none, none, none, none, none, .ok none, none,
    ⟨none, none⟩, ⟨none, none, none⟩⟩

/-- A sample `UploadNewFile` environment. -/
def wNewEnv : UploadNewEnv :=
  ⟨none, .ok "parent", "", .ok "p2", .ok "p3", .ok "p4", false, none, none, .ok none, none, none⟩

/-- A sample local file in lost-conflict position against `wTarget`: same
generation 2, revision not in the target's chain. -/
def wCurLost : VFile := ⟨{ wDoc with docRev := "2-x" }, [9, 9]⟩

/-- The sample VFS state holding only `wCurLost`. -/
def wStLost : VFSState := ⟨[wCurLost]⟩

/-- A sample target that both renames `wDoc` (to `hello2.txt`) and carries
new content, with `wDoc`'s revision in its chain (no conflict). -/
def wTargetMoved : FileDocWithRevisions :=
  ⟨{ wDoc with docRev := "2-b", docName := "hello2.txt" }, ⟨2, ["b", "a"]⟩⟩

/-- A sample recipient-side sharing document. -/
def wSharingDoc : SharingDoc :=
  ⟨"S", false, true, ["trig1"], 1, [⟨"", .owner⟩, ⟨"https://bob.example", .ready⟩]⟩

/-- A sample revocation environment: the first `UpdateDoc` attempt hits a
CouchDB conflict, the reload succeeds, and the second attempt succeeds. -/
def wRevokeEnv : RevokeEnv :=
  { deleteOAuthClient := none, removeTriggers := none, clearLastSeq := none,
    removeSharedRefs := none, hasFilesRuleNoMime := false, removeSharingDir := none,
    hasBitwardenOrgRule := false, removeBitwardenOrg := none,
    upd := fun i => if i = 0 then .conflictErr else .ok,
    reloadErr := fun _ => none,
    reloadDoc := fun _ => wSharingDoc }

/-! ## Helper lemmas -/

theorem find?_filter_eq {α : Type} (p q : α → Bool) (l : List α)
    (h : ∀ x, p x = true → q x = true) : (l.filter q).find? p = l.find? p := by
  induction l with
  | nil => rfl
  | cons a l ih =>
    by_cases hq : q a = true
    · by_cases hp : p a = true
      · simp [List.filter_cons, hq, List.find?_cons, hp]
      · simp only [Bool.not_eq_true] at hp
        simp [List.filter_cons, hq, List.find?_cons, hp, ih]
    · have hp : p a = false := by
        by_contra hc
        simp only [Bool.not_eq_false] at hc
        exact hq (h a hc)
      simp only [Bool.not_eq_true] at hq
      simp [List.filter_cons, hq, List.find?_cons, hp, ih]

theorem fileByID_setFile_self (st : VFSState) (f : VFile) :
    (st.setFile f).fileByID f.doc.docID = some f := by
  simp [VFSState.setFile, VFSState.fileByID, List.find?_cons]

theorem fileByID_setFile_ne (st : VFSState) (f : VFile) (id : String)
    (h : id ≠ f.doc.docID) : (st.setFile f).fileByID id = st.fileByID id := by
  have hne : (decide (f.doc.docID = id)) = false := by
    simp
    exact fun hc => h hc.symm
  simp only [VFSState.setFile, VFSState.fileByID, List.find?_cons, hne]
  exact find?_filter_eq _ _ st.files (by
    intro x hx
    simp at hx ⊢
    intro hcontra
    exact h (hcontra ▸ hx).symm)

theorem fileByID_updateDoc_self (st : VFSState) (id : String) (nd : FileDoc)
    (hnd : nd.docID = id) :
    (st.updateDoc id nd).fileByID id =
      (st.fileByID id).map (fun f => ⟨nd, f.content⟩) := by
  simp only [VFSState.updateDoc, VFSState.fileByID]
  induction st.files with
  | nil => rfl
  | cons a l ih =>
    by_cases ha : a.doc.docID = id
    · simp [List.find?_cons, ha, hnd]
    · simp [List.find?_cons, ha, ih]

theorem fileByID_updateDoc_ne (st : VFSState) (id id2 : String) (nd : FileDoc)
    (hnd : nd.docID = id) (h : id2 ≠ id) :
    (st.updateDoc id nd).fileByID id2 = st.fileByID id2 := by
  simp only [VFSState.updateDoc, VFSState.fileByID]
  induction st.files with
  | nil => rfl
  | cons a l ih =>
    by_cases ha : a.doc.docID = id
    · have h1 : nd.docID = id2 ↔ False := by simp [hnd]; exact fun hc => h hc.symm
      have h2 : a.doc.docID = id2 ↔ False := by
        simp [ha]; exact fun hc => h hc.symm
      have h3 : id = id2 ↔ False := by
        constructor
        · exact fun hc => h hc.symm
        · exact False.elim
      simp [List.find?_cons, ha, h1, h2, h3, ih]
    · simp only [List.map_cons, if_neg ha, List.find?_cons]
      by_cases h2 : a.doc.docID = id2 <;> simp [h2, ih]

theorem conflictID_ne (id rev : String) : conflictID id rev ≠ id := by
  intro h
  have hlen := congrArg String.length h
  have hone : ("-" : String).length = 1 := rfl
  simp [conflictID, String.length_append, hone] at hlen
  omega

theorem conflictID_ne_symm (id rev : String) : id ≠ conflictID id rev :=
  fun h => conflictID_ne id rev h.symm

/-! ## Claim theorems -/

/-- C7: a directory rename through `safeRenameDir` whose cleaned destination
is a proper descendant of the cleaned source (source plus `/` is a prefix of
the destination) fails — with `ErrForbiddenDocMove` when both cleaned paths
are absolute — and never reaches the rename, so a directory is never moved
into its own descendant. -/
theorem safeRenameDir_forbids_descendant (env : RenameDirEnv) (oldpath newpath : String)
    (hpre : goHasPre (goPathClean newpath) (goPathClean oldpath ++ "/") = true) :
    (goIsAbs (goPathClean newpath) = true → goIsAbs (goPathClean oldpath) = true →
      (safeRenameDir env oldpath newpath).res = some Err.errForbiddenDocMove) ∧
    (safeRenameDir env oldpath newpath).renamed = false := by
  constructor
  · intro hn ho
    simp [safeRenameDir, hn, ho, hpre]
  · by_cases hn : goIsAbs (goPathClean newpath) = true
    · by_cases ho : goIsAbs (goPathClean oldpath) = true
      · simp [safeRenameDir, hn, ho, hpre]
      · simp only [Bool.not_eq_true] at ho
        simp [safeRenameDir, ho]
    · simp only [Bool.not_eq_true] at hn
      simp [safeRenameDir, hn]

/-- Witness for C7 at a concrete input: moving `/a/b` into `/a/b/c`. -/
theorem safeRenameDir_forbids_descendant_witness :
    (safeRenameDir ⟨.notFound, none⟩ "/a/b" "/a/b/./c").res = some Err.errForbiddenDocMove ∧
    (safeRenameDir ⟨.notFound, none⟩ "/a/b" "/a/b/./c").renamed = false := by
  have h := safeRenameDir_forbids_descendant ⟨.notFound, none⟩ "/a/b" "/a/b/./c" (by decide)
  exact ⟨h.1 (by decide) (by decide), h.2⟩

/-- C8: for well-formed ids (32-byte document id, 16-byte internal id) the
swift v3 object name follows the spec layout
`<docid[0:22]>/<docid[22:27]>/<docid[27:32]>/<internal-id>`, another internal
id of the same document reuses the same docid-derived prefix, and the
per-instance container name begins with `cozy-v3-`. -/
theorem MakeObjectNameV3_layout (docID internalID iid2 : String)
    (h32 : docID.length = 32) (h16 : internalID.length = 16) (h16b : iid2.length = 16) :
    MakeObjectNameV3 docID internalID = specObjectNameV3 docID internalID ∧
    (∃ pre, MakeObjectNameV3 docID internalID = pre ++ "/" ++ internalID ∧
            MakeObjectNameV3 docID iid2 = pre ++ "/" ++ iid2) ∧
    (∀ p, ∃ rest, containerNameV3 p = "cozy-v3-" ++ rest) := by
  refine ⟨?_, ?_, ?_⟩
  · simp [MakeObjectNameV3, specObjectNameV3, h32, h16]
  · refine ⟨goSlice docID 0 22 ++ "/" ++ goSlice docID 22 27 ++ "/" ++
      goSlice docID 27 docID.length, ?_, ?_⟩
    · simp [MakeObjectNameV3, h32, h16]
    · simp [MakeObjectNameV3, h32, h16b]
  · intro p
    exact ⟨p, rfl⟩

/-- Witness for C8 at a concrete input. -/
theorem MakeObjectNameV3_layout_witness :
    MakeObjectNameV3 "0123456789abcdef0123456789abcdef" "0123456789abcdef" =
      specObjectNameV3 "0123456789abcdef0123456789abcdef" "0123456789abcdef" := by
  exact (MakeObjectNameV3_layout "0123456789abcdef0123456789abcdef" "0123456789abcdef"
    "fedcba9876543210" (by decide) (by decide) (by decide)).1

/-- C9: `uploadFile` skips a trashed file outright: it returns nil and sends
no request to the peer, so the trashed state only travels through document
replication. -/
theorem uploadFile_skips_trashed (s : Sharing) (env : UploadFileEnv) (file : FileDoc)
    (h : file.trashed = true) : uploadFile s env file = (none, []) := by
  simp [uploadFile, h]

/-- Witness for C9 at a concrete input. -/
theorem uploadFile_skips_trashed_witness :
    uploadFile ⟨"sid", 0⟩
      ⟨true, none, "x", .noContent, none, none, none⟩
      ⟨"id", "1-a", "n", "d", 0, [0], true, "", 0, []⟩ = (none, []) :=
  uploadFile_skips_trashed _ _ _ rfl

/-- C10: `SyncFile` on a target with an empty MD5 returns `ErrInvalidHash`
with the state untouched and an empty trace: no lock was acquired and no
local state was read. -/
theorem syncFile_rejects_empty_md5 (s : Sharing) (env : SyncEnv)
    (sharedDocs : List SharedRef) (st : VFSState) (target : FileDocWithRevisions)
    (h : target.fileDoc.md5sum = []) :
    syncFile s env sharedDocs st target = (.error .errInvalidHash, st, []) := by
  simp [syncFile, h]

/-- Witness for C10 at a concrete input. -/
theorem syncFile_rejects_empty_md5_witness :
    syncFile ⟨"sid", 0⟩
      ⟨none, none, .ok "k", ⟨⟨false, .ok "", .ok ""⟩, [], none, .ok none, none⟩⟩
      [] ⟨[]⟩ ⟨⟨"id", "1-a", "n", "d", 0, [], false, "", 0, []⟩, ⟨1, ["a"]⟩⟩ =
      (.error .errInvalidHash, ⟨[]⟩, []) :=
  syncFile_rejects_empty_md5 _ _ _ _ _ rfl

theorem revokeUpdateLoop_spec (env : RevokeEnv) : ∀ fuel i s0,
    (revokeUpdateLoop env fuel i s0).1.length ≤ fuel ∧
    (revokeUpdateLoop env fuel i s0).1 =
      List.range' i (revokeUpdateLoop env fuel i s0).1.length ∧
    ∀ j, (j + 1) ∈ (revokeUpdateLoop env fuel i s0).1 →
      j + 1 = i ∨ (env.upd j = .conflictErr ∧ env.reloadErr j = none) := by
  intro fuel
  induction fuel with
  | zero =>
    intro i s0
    simp [revokeUpdateLoop]
  | succ fuel ih =>
    intro i s0
    cases hu : env.upd i with
    | ok =>
      refine ⟨by simp [revokeUpdateLoop, hu], by simp [revokeUpdateLoop, hu, List.range'], ?_⟩
      intro j hj
      simp [revokeUpdateLoop, hu] at hj
      exact Or.inl hj
    | otherFail e =>
      refine ⟨by simp [revokeUpdateLoop, hu], by simp [revokeUpdateLoop, hu, List.range'], ?_⟩
      intro j hj
      simp [revokeUpdateLoop, hu] at hj
      exact Or.inl hj
    | conflictErr =>
      cases hr : env.reloadErr i with
      | some e =>
        refine ⟨by simp [revokeUpdateLoop, hu, hr],
          by simp [revokeUpdateLoop, hu, hr, List.range'], ?_⟩
        intro j hj
        simp [revokeUpdateLoop, hu, hr] at hj
        exact Or.inl hj
      | none =>
        have h1 : revokeUpdateLoop env (fuel + 1) i s0 =
            (i :: (revokeUpdateLoop env fuel (i + 1) (env.reloadDoc i)).1,
             (revokeUpdateLoop env fuel (i + 1) (env.reloadDoc i)).2) := by
          simp [revokeUpdateLoop, hu, hr]
        obtain ⟨ihlen, ihrange, ihmem⟩ := ih (i + 1) (env.reloadDoc i)
        refine ⟨?_, ?_, ?_⟩
        · rw [h1]
          simp
          omega
        · rw [h1]
          simp only [List.length_cons]
          rw [List.range'_succ]
          simp only [List.cons.injEq, true_and]
          exact ihrange
        · intro j hj
          rw [h1] at hj
          simp only [List.mem_cons] at hj
          rcases hj with hj | hj
          · exact Or.inl hj
          · rcases ihmem j hj with hji | hj2
            · have : j = i := by omega
              subst this
              exact Or.inr ⟨hu, hr⟩
            · exact Or.inr hj2

theorem revokeUpdateLoop_attempts (env : RevokeEnv) (s0 : SharingDoc) :
    (revokeUpdateLoop env 3 0 s0).1.length ≤ 3 ∧
    (revokeUpdateLoop env 3 0 s0).1 = List.range (revokeUpdateLoop env 3 0 s0).1.length ∧
    ∀ i, (i + 1) ∈ (revokeUpdateLoop env 3 0 s0).1 →
      env.upd i = .conflictErr ∧ env.reloadErr i = none := by
  obtain ⟨hlen, hrange, hmem⟩ := revokeUpdateLoop_spec env 3 0 s0
  refine ⟨hlen, ?_, ?_⟩
  · rw [List.range_eq_range']
    exact hrange
  · intro i hi
    rcases hmem i hi with h | h
    · omega
    · exact h

/-- C6: `RevokeByNotification` updates the sharing document in a bounded
retry loop: at most three `UpdateDoc` attempts are made, they are
consecutive, and a retry only happens when the previous attempt failed with
a CouchDB conflict and the document was successfully reloaded; a success or
any other error stops the loop. -/
theorem revokeByNotification_bounded_retry (env : RevokeEnv) (s : SharingDoc) :
    (revokeByNotification env s).attempts.length ≤ 3 ∧
    (revokeByNotification env s).attempts =
      List.range (revokeByNotification env s).attempts.length ∧
    ∀ i, (i + 1) ∈ (revokeByNotification env s).attempts →
      env.upd i = .conflictErr ∧ env.reloadErr i = none := by
  have hcases : (revokeByNotification env s).attempts = [] ∨
      (revokeByNotification env s).attempts = (revokeUpdateLoop env 3 0 s).1 := by
    unfold revokeByNotification
    by_cases how : s.owner
    · simp [how]
    · simp only [how, if_false, Bool.false_eq_true, if_neg, ite_false]
      cases h1 : env.deleteOAuthClient with
      | some e => simp
      | none =>
        cases h2 : env.removeTriggers with
        | some e => simp
        | none =>
          cases h3 : env.clearLastSeq with
          | some e => simp
          | none =>
            cases h4 : env.removeSharedRefs with
            | some e => simp
            | none =>
              cases h5 : (if env.hasFilesRuleNoMime then env.removeSharingDir else none) with
              | some e => simp [h5]
              | none =>
                cases h6 : (if env.hasBitwardenOrgRule then env.removeBitwardenOrg else none) with
                | some e => simp [h5, h6]
                | none => simp [h5, h6]
  rcases hcases with hc | hc
  · rw [hc]
    exact ⟨by simp, by simp, by simp⟩
  · rw [hc]
    exact revokeUpdateLoop_attempts env s

theorem aferoCloseCore_cases (md5fn : List Nat → List Nat) (f : AferoFileCreation)
    (env : CloseEnv) (st : AferoState) :
    (∃ e, aferoCloseCore md5fn f env st = (some e, st)) ∨
    (∃ e, env.renameTmpErr = some e ∧
      aferoCloseCore md5fn f env st =
        (some e, if f.olddoc = none
          then { st with indexEntries := f.newdocID :: st.indexEntries } else st)) ∨
    aferoCloseCore md5fn f env st =
      (none, { (if f.olddoc = none
          then { st with indexEntries := f.newdocID :: st.indexEntries } else st) with
        tmpExists := false }) := by
  cases hfw : f.werr with
  | some e => exact Or.inl ⟨e, by cases hce : env.closeErr <;> simp [aferoCloseCore, hfw, hce]⟩
  | none =>
  cases hce : env.closeErr with
  | some e => exact Or.inl ⟨e, by simp [aferoCloseCore, hfw, hce]⟩
  | none =>
  by_cases hmd : (match f.newdocMD5 with
      | none => md5fn f.hashed
      | some m => m) ≠ md5fn f.hashed
  · exact Or.inl ⟨.errInvalidHash, by simp [aferoCloseCore, hfw, hce, hmd]⟩
  by_cases hbs : (if f.size < 0 then f.w else f.newdocByteSize) ≠ f.w
  · exact Or.inl ⟨.errContentLengthMismatch, by simp [aferoCloseCore, hfw, hce, hmd, hbs]⟩
  cases hlk : env.lockErr with
  | some e => exact Or.inl ⟨e, by simp [aferoCloseCore, hfw, hce, hmd, hbs, hlk]⟩
  | none =>
  cases hold : f.olddoc with
  | none =>
    cases hch : env.childExists with
    | error e =>
      exact Or.inl ⟨e, by simp [aferoCloseCore, hfw, hce, hmd, hbs, hlk, hold, hch]⟩
    | ok b =>
      cases b with
      | true =>
        exact Or.inl ⟨.errExist, by simp [aferoCloseCore, hfw, hce, hmd, hbs, hlk, hold, hch]⟩
      | false =>
        cases hfp : env.filePathErr with
        | some e =>
          exact Or.inl ⟨e, by simp [aferoCloseCore, hfw, hce, hmd, hbs, hlk, hold, hch, hfp]⟩
        | none =>
          by_cases htr : goHasPre env.newpath (trashDirName ++ "/") = true
          · exact Or.inl ⟨.errParentInTrash,
              by simp [aferoCloseCore, hfw, hce, hmd, hbs, hlk, hold, hch, hfp, htr]⟩
          · cases hix : env.indexErr with
            | some e =>
              exact Or.inl ⟨e,
                by simp [aferoCloseCore, hfw, hce, hmd, hbs, hlk, hold, hch, hfp, htr, hix]⟩
            | none =>
              cases hrn : env.renameTmpErr with
              | some e =>
                exact Or.inr (Or.inl ⟨e, rfl,
                  by simp [aferoCloseCore, hfw, hce, hmd, hbs, hlk, hold, hch, hfp, htr,
                    hix, hrn]⟩)
              | none =>
                exact Or.inr (Or.inr
                  (by simp [aferoCloseCore, hfw, hce, hmd, hbs, hlk, hold, hch, hfp, htr,
                    hix, hrn]))
  | some od =>
    cases hfp : env.filePathErr with
    | some e =>
      exact Or.inl ⟨e, by simp [aferoCloseCore, hfw, hce, hmd, hbs, hlk, hold, hfp]⟩
    | none =>
      by_cases htr : goHasPre env.newpath (trashDirName ++ "/") = true
      · exact Or.inl ⟨.errParentInTrash,
          by simp [aferoCloseCore, hfw, hce, hmd, hbs, hlk, hold, hfp, htr]⟩
      · cases hix : env.indexErr with
        | some e =>
          exact Or.inl ⟨e,
            by simp [aferoCloseCore, hfw, hce, hmd, hbs, hlk, hold, hfp, htr, hix]⟩
        | none =>
          cases hrn : env.renameTmpErr with
          | some e =>
            exact Or.inr (Or.inl ⟨e, rfl,
              by simp [aferoCloseCore, hfw, hce, hmd, hbs, hlk, hold, hfp, htr, hix, hrn]⟩)
          | none =>
            exact Or.inr (Or.inr
              (by simp [aferoCloseCore, hfw, hce, hmd, hbs, hlk, hold, hfp, htr, hix, hrn]))

/-- C5: on `Close` of an afero file-creation handle, a declared MD5 that
differs from the computed one yields `InvalidHash`; a declared size that
differs from the written byte count yields `ContentLengthMismatch`; and any
error removes the temporary object and leaves a new file (one with no old
document) without an index entry.  The rename of the temporary object is a
filesystem operation, so its error is never classified as a CouchDB
error. -/
theorem aferoClose_checks_and_cleanup (md5fn : List Nat → List Nat)
    (f : AferoFileCreation) (env : CloseEnv) (st : AferoState)
    (hrename : ∀ e, env.renameTmpErr = some e → e.isCouch = false) :
    (f.werr = none → env.closeErr = none → ∀ m, f.newdocMD5 = some m →
       m ≠ md5fn f.hashed → (aferoClose md5fn f env st).1 = some .errInvalidHash) ∧
    (f.werr = none → env.closeErr = none →
       (f.newdocMD5 = none ∨ f.newdocMD5 = some (md5fn f.hashed)) →
       (0 : Int) ≤ f.size → f.newdocByteSize = f.size → f.newdocByteSize ≠ f.w →
       (aferoClose md5fn f env st).1 = some .errContentLengthMismatch) ∧
    (∀ e, (aferoClose md5fn f env st).1 = some e →
       (aferoClose md5fn f env st).2.tmpExists = false ∧
       (f.olddoc = none → f.newdocID ∉ st.indexEntries →
         f.newdocID ∉ (aferoClose md5fn f env st).2.indexEntries)) := by
  refine ⟨?_, ?_, ?_⟩
  · intro hw hc m hm hne
    simp [aferoClose, aferoCloseCore, hw, hc, hm, hne]
  · intro hw hc hmd5 hsz hdecl hne
    have hnlt : ¬ f.size < 0 := by omega
    rcases hmd5 with hm | hm <;>
      simp [aferoClose, aferoCloseCore, hw, hc, hm, hnlt, hne]
  · intro e he
    constructor
    · rcases hco : aferoCloseCore md5fn f env st with ⟨res, stc⟩
      cases res with
      | none => simp [aferoClose, hco] at he
      | some e2 =>
        simp only [aferoClose, hco]
        split <;> rfl
    · intro hold hmem
      rcases aferoCloseCore_cases md5fn f env st with ⟨e0, hc⟩ | ⟨e0, hrn, hc⟩ | hc
      · simp only [aferoClose, hc, hold]
        by_cases hcouch : e0.isCouch = true
        · simp [hcouch, hmem]
        · simp only [Bool.not_eq_true] at hcouch
          simp only [hcouch]
          rw [List.erase_of_not_mem hmem]
          simpa using hmem
      · have hnc := hrename e0 hrn
        simp only [aferoClose, hc, hold, hnc]
        simp [List.erase_cons_head, hmem]
      · rw [aferoClose] at he
        rw [hc] at he
        simp at he

/-- Witness for C5 at a concrete input: a declared MD5 `[1]` against written
bytes hashing to `[]`. -/
theorem aferoClose_checks_and_cleanup_witness :
    (aferoClose (fun l => l)
      ⟨some [1], 0, "id", none, 0, 0, -1, 0, [], none⟩
      ⟨none, none, .ok false, "/x", none, none, true, none⟩
      ⟨true, []⟩).1 = some .errInvalidHash :=
  (aferoClose_checks_and_cleanup (fun l => l)
      ⟨some [1], 0, "id", none, 0, 0, -1, 0, [], none⟩
      ⟨none, none, .ok false, "/x", none, none, true, none⟩
      ⟨true, []⟩
      (by intro e he; simp at he)).1 rfl rfl [1] rfl (by decide)

theorem updateFileMetadata_shape (env : UpdateMetaEnv) (target : FileDocWithRevisions)
    (cur : VFile) (st : VFSState) :
    ((updateFileMetadata env target cur st).2.1 = st ∧
      (updateFileMetadata env target cur st).2.2 = []) ∨
    ∃ nd, nd.docID = cur.doc.docID ∧
      (updateFileMetadata env target cur st).2.1 = st.updateDoc cur.doc.docID nd ∧
      (updateFileMetadata env target cur st).2.2 = [.updateFileDoc cur.doc nd] ∧
      (updateFileMetadata env target cur st).1 = none := by
  cases hdc : detectConflict cur.doc.docRev (revsStructToChain target.revisions) with
  | lostConflict => exact Or.inl (by simp [updateFileMetadata, hdc])
  | wonConflict =>
    cases hp : prepareFileWithAncestors env.prepare cur.doc.dirID target.fileDoc.dirID with
    | error e => exact Or.inl (by simp [updateFileMetadata, hdc, hp])
    | ok dirID =>
      cases hu1 : env.update1 with
      | none =>
        refine Or.inr ⟨{ cur.doc with
          docName := target.fileDoc.docName, dirID := dirID,
          safeMeta := target.fileDoc.safeMeta, refBy := env.refBy }, rfl, ?_, ?_, ?_⟩ <;>
          simp [updateFileMetadata, hdc, hp, hu1]
      | some e =>
        by_cases he : e = Err.errExist
        · cases hsp : env.samePath with
          | error e2 => exact Or.inl (by simp [updateFileMetadata, hdc, hp, hu1, he, hsp])
          | ok nameOpt =>
            cases hu2 : env.update2 with
            | none =>
              refine Or.inr ⟨(match nameOpt with
                | some name => { cur.doc with
                    docName := name, dirID := dirID,
                    safeMeta := target.fileDoc.safeMeta, refBy := env.refBy }
                | none => { cur.doc with
                    docName := target.fileDoc.docName, dirID := dirID,
                    safeMeta := target.fileDoc.safeMeta, refBy := env.refBy }), ?_, ?_, ?_, ?_⟩
              · cases nameOpt <;> rfl
              all_goals
                cases nameOpt <;> simp [updateFileMetadata, hdc, hp, hu1, he, hsp, hu2]
            | some e2 => exact Or.inl (by simp [updateFileMetadata, hdc, hp, hu1, he, hsp, hu2])
        · exact Or.inl (by simp [updateFileMetadata, hdc, hp, hu1, he])
  | noConflict =>
    cases hp : prepareFileWithAncestors env.prepare cur.doc.dirID target.fileDoc.dirID with
    | error e => exact Or.inl (by simp [updateFileMetadata, hdc, hp])
    | ok dirID =>
      cases hu1 : env.update1 with
      | none =>
        refine Or.inr ⟨{ cur.doc with
          docName := target.fileDoc.docName, dirID := dirID,
          safeMeta := target.fileDoc.safeMeta, refBy := env.refBy }, rfl, ?_, ?_, ?_⟩ <;>
          simp [updateFileMetadata, hdc, hp, hu1]
      | some e =>
        by_cases he : e = Err.errExist
        · cases hsp : env.samePath with
          | error e2 => exact Or.inl (by simp [updateFileMetadata, hdc, hp, hu1, he, hsp])
          | ok nameOpt =>
            cases hu2 : env.update2 with
            | none =>
              refine Or.inr ⟨(match nameOpt with
                | some name => { cur.doc with
                    docName := name, dirID := dirID,
                    safeMeta := target.fileDoc.safeMeta, refBy := env.refBy }
                | none => { cur.doc with
                    docName := target.fileDoc.docName, dirID := dirID,
                    safeMeta := target.fileDoc.safeMeta, refBy := env.refBy }), ?_, ?_, ?_, ?_⟩
              · cases nameOpt <;> rfl
              all_goals
                cases nameOpt <;> simp [updateFileMetadata, hdc, hp, hu1, he, hsp, hu2]
            | some e2 => exact Or.inl (by simp [updateFileMetadata, hdc, hp, hu1, he, hsp, hu2])
        · exact Or.inl (by simp [updateFileMetadata, hdc, hp, hu1, he])

/-- C2: the phase-1 metadata probe on an existing local file with a live
`Shared` entry: a target revision already present in the revision tree is an
echo (no key, nothing changed); a differing MD5 answers an upload key
without changing anything yet; an equal MD5 performs a metadata-only update
and answers no key — the stored content is untouched and no content write
appears in the trace. -/
theorem syncFile_phase1 (s : Sharing) (env : SyncEnv) (sharedDocs : List SharedRef)
    (st : VFSState) (target : FileDocWithRevisions) (cur : VFile) (ref : SharedRef)
    (infos : SharedInfo)
    (hmd5 : target.fileDoc.md5sum ≠ [])
    (hlock : env.lockErr = none)
    (hcur : st.fileByID target.fileDoc.docID = some cur)
    (href : findShared sharedDocs ("io.cozy.files/" ++ target.fileDoc.docID) = some ref)
    (hinfo : ref.findInfo s.sid = some infos)
    (hsafe : ¬ (infos.removed = true ∧ infos.dissociated = false)) :
    ((ref.revisions.find target.fileDoc.docRev).isSome = true →
      (syncFile s env sharedDocs st target).1 = .ok none ∧
      (syncFile s env sharedDocs st target).2.1 = st) ∧
    ((ref.revisions.find target.fileDoc.docRev).isSome = false →
      target.fileDoc.md5sum ≠ cur.doc.md5sum → ∀ k, env.saveKey = .ok k →
      (syncFile s env sharedDocs st target).1 = .ok (some ⟨k⟩) ∧
      (syncFile s env sharedDocs st target).2.1 = st) ∧
    ((ref.revisions.find target.fileDoc.docRev).isSome = false →
      target.fileDoc.md5sum = cur.doc.md5sum →
      (∀ k, (syncFile s env sharedDocs st target).1 ≠ .ok (some k)) ∧
      ((syncFile s env sharedDocs st target).2.1.fileByID target.fileDoc.docID).map
          (fun f => f.content) = some cur.content ∧
      (∀ nd old c, FsOp.createFile nd old c ∉ (syncFile s env sharedDocs st target).2.2)) := by
  have hsafe2 : ¬ (infos.removed = true ∧ ¬ infos.dissociated = true) := by
    intro ⟨h1, h2⟩
    exact hsafe ⟨h1, by simpa using h2⟩
  have hcurid : cur.doc.docID = target.fileDoc.docID := by
    have h := hcur
    simp only [VFSState.fileByID] at h
    have h2 := List.find?_some h
    simpa using h2
  refine ⟨?_, ?_, ?_⟩
  · intro hecho
    constructor <;>
      simp [syncFile, hmd5, hlock, hcur, href, hinfo, hsafe2, hsafe, hecho]
  · intro hecho hdiff k hk
    constructor <;>
      simp [syncFile, createUploadKey, hmd5, hlock, hcur, href, hinfo, hsafe2, hsafe, hecho, hdiff, hk]
  · intro hecho heq
    have hmd5c : cur.doc.md5sum ≠ [] := heq ▸ hmd5
    have hshape := updateFileMetadata_shape env.meta target cur st
    rcases hum : updateFileMetadata env.meta target cur st with ⟨res, st1, ops⟩
    rw [hum] at hshape
    have hst : (syncFile s env sharedDocs st target).2.1 = st1 := by
      simp [syncFile, hmd5, hmd5c, hlock, hcur, href, hinfo, hsafe2, hsafe, hecho, heq, hum]
    have hres : (syncFile s env sharedDocs st target).1 = .ok none ∨
        ∃ e, (syncFile s env sharedDocs st target).1 = .error e := by
      cases hr : res with
      | none =>
        exact Or.inl (by
          simp [syncFile, hmd5, hmd5c, hlock, hcur, href, hinfo, hsafe2, hsafe, hecho, heq,
            hum, hr])
      | some e =>
        exact Or.inr ⟨e, by
          simp [syncFile, hmd5, hmd5c, hlock, hcur, href, hinfo, hsafe2, hsafe, hecho, heq,
            hum, hr]⟩
    have htr : (syncFile s env sharedDocs st target).2.2 =
        [FsOp.acquireLock ("shared/" ++ ("io.cozy.files/" ++ target.fileDoc.docID)),
         FsOp.readFile target.fileDoc.docID,
         FsOp.readSharedDoc ("io.cozy.files/" ++ target.fileDoc.docID)] ++ ops := by
      simp [syncFile, hmd5, hmd5c, hlock, hcur, href, hinfo, hsafe2, hsafe, hecho, heq, hum]
    refine ⟨?_, ?_, ?_⟩
    · intro k
      rcases hres with h | ⟨e, h⟩ <;> simp [h]
    · rw [hst]
      rcases hshape with ⟨h1, _⟩ | ⟨nd, hnd, h1, _, _⟩
      · simp only at h1
        rw [h1, hcur]
        simp
      · simp only at h1
        rw [h1, ← hcurid, fileByID_updateDoc_self st cur.doc.docID nd hnd]
        rw [hcurid, hcur]
        simp
    · intro nd old c
      rw [htr]
      rcases hshape with ⟨_, h2⟩ | ⟨nd2, _, _, h2, _⟩ <;> simp only at h2 <;>
        simp [h2]

/-- Witness for C2 at concrete inputs: the echo branch, the differing-MD5
branch, and the equal-MD5 branch. -/
theorem syncFile_phase1_witness :
    ((syncFile wSharing wSyncEnv [wRefEcho] wSt wTarget).1 = .ok none ∧
      (syncFile wSharing wSyncEnv [wRefEcho] wSt wTarget).2.1 = wSt) ∧
    ((syncFile wSharing wSyncEnv [wRefKnown] wSt
        ⟨{ wDoc with docRev := "2-b", md5sum := [8, 8] }, ⟨2, ["b", "a"]⟩⟩).1 =
          .ok (some ⟨"KEY"⟩) ∧
      (syncFile wSharing wSyncEnv [wRefKnown] wSt
        ⟨{ wDoc with docRev := "2-b", md5sum := [8, 8] }, ⟨2, ["b", "a"]⟩⟩).2.1 = wSt) ∧
    (∀ k, (syncFile wSharing wSyncEnv [wRefKnown] wSt wTarget).1 ≠ .ok (some k)) := by
  refine ⟨?_, ?_, ?_⟩
  · exact (syncFile_phase1 wSharing wSyncEnv [wRefEcho] wSt wTarget wCur wRefEcho
      ⟨0, true, false, false⟩ (by decide) rfl (by decide) (by decide) (by decide)
      (by decide)).1 (by decide)
  · exact (syncFile_phase1 wSharing wSyncEnv [wRefKnown] wSt
      ⟨{ wDoc with docRev := "2-b", md5sum := [8, 8] }, ⟨2, ["b", "a"]⟩⟩ wCur wRefKnown
      ⟨0, true, false, false⟩ (by decide) rfl (by decide) (by decide) (by decide)
      (by decide)).2.1 (by decide) (by decide) "KEY" rfl
  · exact ((syncFile_phase1 wSharing wSyncEnv [wRefKnown] wSt wTarget wCur
      wRefKnown ⟨0, true, false, false⟩ (by decide) rfl (by decide) (by decide) (by decide)
      (by decide)).2.2 (by decide) (by decide)).1

/-- C3: the receive side fails with `ErrSafety` — applying no document or
content change — when the file id is not claimed by this sharing: a new file
matching no rule in `SyncFile` or `UploadNewFile`, an existing file with no
`Shared` document or no infos entry for this sharing in `SyncFile` or
`UploadExistingFile`, and a file whose entry is removed and not
dissociated. -/
theorem receive_safety_guards (s : Sharing) (envS : SyncEnv) (envN : UploadNewEnv)
    (envE : UploadExistingEnv) (sharedDocs : List SharedRef) (st : VFSState)
    (target : FileDocWithRevisions) (current : VFile) (body : List Nat) :
    (envS.lockErr = none → target.fileDoc.md5sum ≠ [] →
      st.fileByID target.fileDoc.docID = none → envS.ruleForNewFile = none →
      (syncFile s envS sharedDocs st target).1 = .error .errSafety ∧
      (syncFile s envS sharedDocs st target).2.1 = st) ∧
    (envS.lockErr = none → target.fileDoc.md5sum ≠ [] →
      (∃ cur, st.fileByID target.fileDoc.docID = some cur) →
      findShared sharedDocs ("io.cozy.files/" ++ target.fileDoc.docID) = none →
      (syncFile s envS sharedDocs st target).1 = .error .errSafety ∧
      (syncFile s envS sharedDocs st target).2.1 = st) ∧
    (envS.lockErr = none → target.fileDoc.md5sum ≠ [] →
      (∃ cur, st.fileByID target.fileDoc.docID = some cur) →
      ∀ ref, findShared sharedDocs ("io.cozy.files/" ++ target.fileDoc.docID) = some ref →
      (ref.findInfo s.sid = none ∨
        ∃ infos, ref.findInfo s.sid = some infos ∧
          infos.removed = true ∧ infos.dissociated = false) →
      (syncFile s envS sharedDocs st target).1 = .error .errSafety ∧
      (syncFile s envS sharedDocs st target).2.1 = st) ∧
    (envN.ruleForNewFile = none →
      uploadNewFile s envN st target body = (some .errSafety, st, [])) ∧
    (findShared sharedDocs ("io.cozy.files/" ++ target.fileDoc.docID) = none →
      uploadExistingFile s envE sharedDocs st target current body =
        (some .errSafety, st, [])) ∧
    (∀ ref, findShared sharedDocs ("io.cozy.files/" ++ target.fileDoc.docID) = some ref →
      (ref.findInfo s.sid = none ∨
        ∃ infos, ref.findInfo s.sid = some infos ∧
          infos.removed = true ∧ infos.dissociated = false) →
      uploadExistingFile s envE sharedDocs st target current body =
        (some .errSafety, st, [])) := by
  refine ⟨?_, ?_, ?_, ?_, ?_, ?_⟩
  · intro hlock hmd5 hnone hrule
    constructor <;> simp [syncFile, hlock, hmd5, hnone, hrule]
  · intro hlock hmd5 ⟨cur, hcur⟩ href
    constructor <;> simp [syncFile, hlock, hmd5, hcur, href]
  · intro hlock hmd5 ⟨cur, hcur⟩ ref href hbad
    rcases hbad with hbad | ⟨infos, hinfo, hrem, hdis⟩
    · constructor <;> simp [syncFile, hlock, hmd5, hcur, href, hbad]
    · constructor <;> simp [syncFile, hlock, hmd5, hcur, href, hinfo, hrem, hdis]
  · intro hrule
    simp [uploadNewFile, hrule]
  · intro href
    simp [uploadExistingFile, href]
  · intro ref href hbad
    rcases hbad with hbad | ⟨infos, hinfo, hrem, hdis⟩
    · simp [uploadExistingFile, href, hbad]
    · simp [uploadExistingFile, href, hinfo, hrem, hdis]

/-- Witness for C3 at concrete inputs: a new file with no matching rule, an
existing file with no `Shared` document, and a removed-and-not-dissociated
entry, across the three receive entry points. -/
theorem receive_safety_guards_witness :
    ((syncFile wSharing { wSyncEnv with ruleForNewFile := none } [] ⟨[]⟩ wTarget).1 =
        .error .errSafety) ∧
    ((syncFile wSharing wSyncEnv [] wSt wTarget).1 = .error .errSafety) ∧
    ((syncFile wSharing wSyncEnv [wRefRemoved] wSt wTarget).1 = .error .errSafety) ∧
    (uploadNewFile wSharing { wNewEnv with ruleForNewFile := none } wSt wTarget [1] =
      (some .errSafety, wSt, [])) ∧
    (uploadExistingFile wSharing wUpEnv [] wSt wTarget wCur [1] =
      (some .errSafety, wSt, [])) ∧
    (uploadExistingFile wSharing wUpEnv [wRefRemoved] wSt wTarget wCur [1] =
      (some .errSafety, wSt, [])) := by
  have h := receive_safety_guards wSharing wSyncEnv wNewEnv wUpEnv [wRefRemoved] wSt
    wTarget wCur [1]
  refine ⟨?_, ?_, ?_, ?_, ?_, ?_⟩
  · exact (receive_safety_guards wSharing { wSyncEnv with ruleForNewFile := none } wNewEnv
      wUpEnv [] ⟨[]⟩ wTarget wCur [1]).1 rfl (by decide) (by decide) rfl |>.1
  · exact (receive_safety_guards wSharing wSyncEnv wNewEnv wUpEnv [] wSt wTarget wCur
      [1]).2.1 rfl (by decide) ⟨wCur, by decide⟩ (by decide) |>.1
  · exact (h.2.2.1 rfl (by decide) ⟨wCur, by decide⟩ wRefRemoved (by decide)
      (Or.inr ⟨⟨0, true, true, false⟩, by decide, rfl, rfl⟩)).1
  · exact (receive_safety_guards wSharing wSyncEnv { wNewEnv with ruleForNewFile := none }
      wUpEnv [] wSt wTarget wCur [1]).2.2.2.1 rfl
  · exact (receive_safety_guards wSharing wSyncEnv wNewEnv wUpEnv [] wSt wTarget wCur
      [1]).2.2.2.2.1 (by decide)
  · exact h.2.2.2.2.2 wRefRemoved (by decide)
      (Or.inr ⟨⟨0, true, true, false⟩, by decide, rfl, rfl⟩)

theorem uploadLostConflict_spec (env : LostEnv) (st : VFSState)
    (target : FileDocWithRevisions) (newdoc : FileDoc) (body : List Nat)
    (hfresh : st.fileByID (conflictID newdoc.docID target.rev) = none)
    (h1 : env.lostCreate = none) (h2 : env.lostCopy = none) :
    uploadLostConflict env st target newdoc body =
      (none,
       st.setFile ⟨{ newdoc with
         docID := conflictID newdoc.docID target.rev,
         docName := conflictName newdoc.docName, docRev := "" }, body⟩,
       [.createFile { newdoc with
         docID := conflictID newdoc.docID target.rev,
         docName := conflictName newdoc.docName, docRev := "" } none body]) := by
  simp [uploadLostConflict, hfresh, h1, h2]

theorem uploadWonConflict_spec (env : WonEnv) (st : VFSState) (src : VFile)
    (hfresh : st.fileByID (conflictID src.doc.docID src.doc.docRev) = none)
    (h0 : env.wonOpen = none) (h1 : env.wonCreate = none) (h2 : env.wonCopy = none) :
    uploadWonConflict env st src =
      (none,
       st.setFile ⟨{ src.doc with
         docID := conflictID src.doc.docID src.doc.docRev,
         docName := conflictName src.doc.docName }, src.content⟩,
       [.createFile { src.doc with
         docID := conflictID src.doc.docID src.doc.docRev,
         docName := conflictName src.doc.docName } none src.content]) := by
  simp [uploadWonConflict, hfresh, h0, h1, h2]

theorem uploadExistingAccept_easy (env : UploadExistingEnv) (olddoc nd1 : FileDoc)
    (body : List Nat) (st1 : VFSState) (tr1 : List FsOp)
    (hpath : nd1.docName = olddoc.docName ∧ nd1.dirID = olddoc.dirID)
    (h1 : env.createEasy = none) (h2 : env.copyEasy = none) :
    uploadExistingAccept env olddoc nd1 body st1 tr1 =
      (none, st1.setFile ⟨nd1, body⟩, tr1 ++ [.createFile nd1 (some olddoc) body]) := by
  simp [uploadExistingAccept, hpath, h1, h2]

theorem uploadExistingAccept_move (env : UploadExistingEnv) (olddoc nd1 : FileDoc)
    (body : List Nat) (st1 : VFSState) (tr1 : List FsOp)
    (hpath : ¬ (nd1.docName = olddoc.docName ∧ nd1.dirID = olddoc.dirID))
    (h1 : env.createTmp = none) (h2 : env.copyTmp = none) (h3 : env.update1 = none) :
    uploadExistingAccept env olddoc nd1 body st1 tr1 =
      (none,
       (st1.setFile ⟨{ nd1 with
          docName := olddoc.docName, dirID := olddoc.dirID }, body⟩).updateDoc
         nd1.docID nd1,
       tr1 ++ [.createFile { nd1 with
           docName := olddoc.docName, dirID := olddoc.dirID } (some olddoc) body,
         .updateFileDoc { nd1 with
           docName := olddoc.docName, dirID := olddoc.dirID } nd1]) := by
  simp [uploadExistingAccept, hpath, h1, h2, h3]

/-- C1: conflict handling on the receive side of `UploadExistingFile`.  On a
lost conflict the uploaded content is saved as a new file under
`conflictID(id, target.Rev())` with a conflict-suffixed name and the existing
local file is untouched.  On a won conflict the local file is first copied
aside (the trace starts with that copy) under `conflictID` of its revision
with a conflict-suffixed name, and only then is the incoming content
accepted at the original id.  With no conflict the incoming content is
applied directly to the original id. -/
theorem uploadExistingFile_conflicts (s : Sharing) (envE : UploadExistingEnv)
    (sharedDocs : List SharedRef) (st : VFSState) (target : FileDocWithRevisions)
    (current : VFile) (body : List Nat) (ref : SharedRef) (infos : SharedInfo)
    (pdir : String)
    (href : findShared sharedDocs ("io.cozy.files/" ++ target.fileDoc.docID) = some ref)
    (hinfo : ref.findInfo s.sid = some infos)
    (hrem : ¬ (infos.removed = true ∧ infos.dissociated = false))
    (hid : current.doc.docID = target.fileDoc.docID)
    (hprep : prepareFileWithAncestors envE.prepare current.doc.dirID target.fileDoc.dirID =
      .ok pdir) :
    (detectConflict current.doc.docRev (revsStructToChain target.revisions) = .lostConflict →
      st.fileByID (conflictID target.fileDoc.docID target.rev) = none →
      envE.lost.lostCreate = none → envE.lost.lostCopy = none →
      (uploadExistingFile s envE sharedDocs st target current body).1 = none ∧
      (uploadExistingFile s envE sharedDocs st target current body).2.1.fileByID
          target.fileDoc.docID = st.fileByID target.fileDoc.docID ∧
      ∃ vf, (uploadExistingFile s envE sharedDocs st target current body).2.1.fileByID
          (conflictID target.fileDoc.docID target.rev) = some vf ∧
        vf.content = body ∧ vf.doc.docName = conflictName target.fileDoc.docName) ∧
    (detectConflict current.doc.docRev (revsStructToChain target.revisions) = .wonConflict →
      st.fileByID (conflictID current.doc.docID current.doc.docRev) = none →
      envE.won.wonOpen = none → envE.won.wonCreate = none → envE.won.wonCopy = none →
      envE.createEasy = none → envE.copyEasy = none →
      envE.createTmp = none → envE.copyTmp = none → envE.update1 = none →
      (uploadExistingFile s envE sharedDocs st target current body).1 = none ∧
      (∃ vf, (uploadExistingFile s envE sharedDocs st target current body).2.1.fileByID
          (conflictID current.doc.docID current.doc.docRev) = some vf ∧
        vf.content = current.content ∧
        vf.doc.docName = conflictName current.doc.docName) ∧
      (∃ vf, (uploadExistingFile s envE sharedDocs st target current body).2.1.fileByID
          target.fileDoc.docID = some vf ∧ vf.content = body) ∧
      (∃ dst rest, (uploadExistingFile s envE sharedDocs st target current body).2.2 =
          .createFile dst none current.content :: rest ∧
        dst.docID = conflictID current.doc.docID current.doc.docRev)) ∧
    (detectConflict current.doc.docRev (revsStructToChain target.revisions) = .noConflict →
      envE.createEasy = none → envE.copyEasy = none →
      envE.createTmp = none → envE.copyTmp = none → envE.update1 = none →
      (uploadExistingFile s envE sharedDocs st target current body).1 = none ∧
      ∃ vf, (uploadExistingFile s envE sharedDocs st target current body).2.1.fileByID
          target.fileDoc.docID = some vf ∧ vf.content = body) := by
  have hrem2 : ¬ (infos.removed = true ∧ ¬ infos.dissociated = true) := by
    intro ⟨a, b⟩
    exact hrem ⟨a, by simpa using b⟩
  refine ⟨?_, ?_, ?_⟩
  · intro hconf hfresh hc1 hc2
    have hfresh2 : st.fileByID (conflictID current.doc.docID target.rev) = none := by
      rw [hid]; exact hfresh
    have hout : uploadExistingFile s envE sharedDocs st target current body =
        uploadLostConflict envE.lost st target
          { current.doc with
            refBy := envE.refBy, safeMeta := target.fileDoc.safeMeta,
            docName := target.fileDoc.docName, dirID := pdir,
            byteSize := target.fileDoc.byteSize, md5sum := target.fileDoc.md5sum } body := by
      simp [uploadExistingFile, href, hinfo, hrem, hrem2, hprep, hconf]
    rw [hout, uploadLostConflict_spec envE.lost st target _ body (by exact hfresh2) hc1 hc2]
    refine ⟨rfl, ?_, ?_⟩
    · apply fileByID_setFile_ne
      simp only
      rw [← hid]
      exact conflictID_ne_symm current.doc.docID target.rev
    · rw [← hid]
      exact ⟨_, fileByID_setFile_self st _, rfl, rfl⟩
  · intro hconf hfresh hw0 hw1 hw2 he1 he2 hm1 hm2 hm3
    have hwon := uploadWonConflict_spec envE.won st current hfresh hw0 hw1 hw2
    have hout : uploadExistingFile s envE sharedDocs st target current body =
        uploadExistingAccept envE current.doc
          { current.doc with
            refBy := envE.refBy, safeMeta := target.fileDoc.safeMeta,
            docName := target.fileDoc.docName, dirID := pdir,
            byteSize := target.fileDoc.byteSize, md5sum := target.fileDoc.md5sum }
          body
          (st.setFile ⟨{ current.doc with
            docID := conflictID current.doc.docID current.doc.docRev,
            docName := conflictName current.doc.docName }, current.content⟩)
          [.createFile { current.doc with
            docID := conflictID current.doc.docID current.doc.docRev,
            docName := conflictName current.doc.docName } none current.content] := by
      simp [uploadExistingFile, href, hinfo, hrem, hrem2, hprep, hconf, hwon]
    have hdst : (st.setFile ⟨{ current.doc with
            docID := conflictID current.doc.docID current.doc.docRev,
            docName := conflictName current.doc.docName }, current.content⟩).fileByID
        (conflictID current.doc.docID current.doc.docRev) =
          some ⟨{ current.doc with
            docID := conflictID current.doc.docID current.doc.docRev,
            docName := conflictName current.doc.docName }, current.content⟩ :=
      fileByID_setFile_self st _
    by_cases hpath : target.fileDoc.docName = current.doc.docName ∧ pdir = current.doc.dirID
    · rw [hout, uploadExistingAccept_easy envE current.doc _ body _ _ (by simpa using hpath)
        he1 he2]
      refine ⟨rfl, ?_, ?_, ?_⟩
      · have hdst2 : ((st.setFile ⟨{ current.doc with
            docID := conflictID current.doc.docID current.doc.docRev,
            docName := conflictName current.doc.docName }, current.content⟩).setFile
            ⟨{ current.doc with
            refBy := envE.refBy, safeMeta := target.fileDoc.safeMeta,
            docName := target.fileDoc.docName, dirID := pdir,
            byteSize := target.fileDoc.byteSize, md5sum := target.fileDoc.md5sum }, body⟩).fileByID
              (conflictID current.doc.docID current.doc.docRev) =
            some ⟨{ current.doc with
            docID := conflictID current.doc.docID current.doc.docRev,
            docName := conflictName current.doc.docName }, current.content⟩ := by
          rw [fileByID_setFile_ne _ (⟨{ current.doc with
            refBy := envE.refBy, safeMeta := target.fileDoc.safeMeta,
            docName := target.fileDoc.docName, dirID := pdir,
            byteSize := target.fileDoc.byteSize, md5sum := target.fileDoc.md5sum }, body⟩ : VFile) _
            (conflictID_ne current.doc.docID current.doc.docRev)]
          exact hdst
        exact ⟨_, hdst2, rfl, rfl⟩
      · have horig : ((st.setFile ⟨{ current.doc with
            docID := conflictID current.doc.docID current.doc.docRev,
            docName := conflictName current.doc.docName }, current.content⟩).setFile
            ⟨{ current.doc with
            refBy := envE.refBy, safeMeta := target.fileDoc.safeMeta,
            docName := target.fileDoc.docName, dirID := pdir,
            byteSize := target.fileDoc.byteSize, md5sum := target.fileDoc.md5sum }, body⟩).fileByID current.doc.docID =
            some ⟨{ current.doc with
            refBy := envE.refBy, safeMeta := target.fileDoc.safeMeta,
            docName := target.fileDoc.docName, dirID := pdir,
            byteSize := target.fileDoc.byteSize, md5sum := target.fileDoc.md5sum }, body⟩ :=
          fileByID_setFile_self _ _
        rw [← hid]
        exact ⟨_, horig, rfl⟩
      · exact ⟨_, _, rfl, rfl⟩
    · rw [hout, uploadExistingAccept_move envE current.doc _ body _ _ (by simpa using hpath)
        hm1 hm2 hm3]
      refine ⟨rfl, ?_, ?_, ?_⟩
      · have hdst2 : ((((st.setFile ⟨{ current.doc with
            docID := conflictID current.doc.docID current.doc.docRev,
            docName := conflictName current.doc.docName }, current.content⟩).setFile
            ⟨{ current.doc with
            refBy := envE.refBy, safeMeta := target.fileDoc.safeMeta,
            docName := current.doc.docName, dirID := current.doc.dirID,
            byteSize := target.fileDoc.byteSize, md5sum := target.fileDoc.md5sum }, body⟩)).updateDoc current.doc.docID
              { current.doc with
            refBy := envE.refBy, safeMeta := target.fileDoc.safeMeta,
            docName := target.fileDoc.docName, dirID := pdir,
            byteSize := target.fileDoc.byteSize, md5sum := target.fileDoc.md5sum }).fileByID
              (conflictID current.doc.docID current.doc.docRev) =
            some ⟨{ current.doc with
            docID := conflictID current.doc.docID current.doc.docRev,
            docName := conflictName current.doc.docName }, current.content⟩ := by
          rw [fileByID_updateDoc_ne _ current.doc.docID
            (conflictID current.doc.docID current.doc.docRev)
            { current.doc with
            refBy := envE.refBy, safeMeta := target.fileDoc.safeMeta,
            docName := target.fileDoc.docName, dirID := pdir,
            byteSize := target.fileDoc.byteSize, md5sum := target.fileDoc.md5sum } rfl
            (conflictID_ne current.doc.docID current.doc.docRev)]
          rw [fileByID_setFile_ne _ (⟨{ current.doc with
            refBy := envE.refBy, safeMeta := target.fileDoc.safeMeta,
            docName := current.doc.docName, dirID := current.doc.dirID,
            byteSize := target.fileDoc.byteSize, md5sum := target.fileDoc.md5sum }, body⟩ : VFile) _
            (conflictID_ne current.doc.docID current.doc.docRev)]
          exact hdst
        exact ⟨_, hdst2, rfl, rfl⟩
      · have hmid : ((st.setFile ⟨{ current.doc with
            docID := conflictID current.doc.docID current.doc.docRev,
            docName := conflictName current.doc.docName }, current.content⟩).setFile
            ⟨{ current.doc with
            refBy := envE.refBy, safeMeta := target.fileDoc.safeMeta,
            docName := current.doc.docName, dirID := current.doc.dirID,
            byteSize := target.fileDoc.byteSize, md5sum := target.fileDoc.md5sum }, body⟩).fileByID current.doc.docID =
            some ⟨{ current.doc with
            refBy := envE.refBy, safeMeta := target.fileDoc.safeMeta,
            docName := current.doc.docName, dirID := current.doc.dirID,
            byteSize := target.fileDoc.byteSize, md5sum := target.fileDoc.md5sum }, body⟩ :=
          fileByID_setFile_self _ _
        have horig : ((((st.setFile ⟨{ current.doc with
            docID := conflictID current.doc.docID current.doc.docRev,
            docName := conflictName current.doc.docName }, current.content⟩).setFile
            ⟨{ current.doc with
            refBy := envE.refBy, safeMeta := target.fileDoc.safeMeta,
            docName := current.doc.docName, dirID := current.doc.dirID,
            byteSize := target.fileDoc.byteSize, md5sum := target.fileDoc.md5sum }, body⟩)).updateDoc current.doc.docID
              { current.doc with
            refBy := envE.refBy, safeMeta := target.fileDoc.safeMeta,
            docName := target.fileDoc.docName, dirID := pdir,
            byteSize := target.fileDoc.byteSize, md5sum := target.fileDoc.md5sum }).fileByID current.doc.docID =
            some ⟨{ current.doc with
            refBy := envE.refBy, safeMeta := target.fileDoc.safeMeta,
            docName := target.fileDoc.docName, dirID := pdir,
            byteSize := target.fileDoc.byteSize, md5sum := target.fileDoc.md5sum }, body⟩ := by
          have h2 := fileByID_updateDoc_self
            ((st.setFile ⟨{ current.doc with
            docID := conflictID current.doc.docID current.doc.docRev,
            docName := conflictName current.doc.docName }, current.content⟩).setFile ⟨{ current.doc with
            refBy := envE.refBy, safeMeta := target.fileDoc.safeMeta,
            docName := current.doc.docName, dirID := current.doc.dirID,
            byteSize := target.fileDoc.byteSize, md5sum := target.fileDoc.md5sum }, body⟩)
            current.doc.docID { current.doc with
            refBy := envE.refBy, safeMeta := target.fileDoc.safeMeta,
            docName := target.fileDoc.docName, dirID := pdir,
            byteSize := target.fileDoc.byteSize, md5sum := target.fileDoc.md5sum } rfl
          rw [h2, hmid]
          rfl
        rw [← hid]
        exact ⟨_, horig, rfl⟩
      · exact ⟨_, _, rfl, rfl⟩
  · intro hconf he1 he2 hm1 hm2 hm3
    have hout : uploadExistingFile s envE sharedDocs st target current body =
        uploadExistingAccept envE current.doc
          { current.doc with
            refBy := envE.refBy, safeMeta := target.fileDoc.safeMeta,
            docName := target.fileDoc.docName, dirID := pdir,
            byteSize := target.fileDoc.byteSize, md5sum := target.fileDoc.md5sum }
          body st [] := by
      simp [uploadExistingFile, href, hinfo, hrem, hrem2, hprep, hconf]
    by_cases hpath : target.fileDoc.docName = current.doc.docName ∧ pdir = current.doc.dirID
    · rw [hout, uploadExistingAccept_easy envE current.doc _ body _ _ (by simpa using hpath)
        he1 he2]
      have horig : (st.setFile ⟨{ current.doc with
            refBy := envE.refBy, safeMeta := target.fileDoc.safeMeta,
            docName := target.fileDoc.docName, dirID := pdir,
            byteSize := target.fileDoc.byteSize, md5sum := target.fileDoc.md5sum }, body⟩).fileByID current.doc.docID =
          some ⟨{ current.doc with
            refBy := envE.refBy, safeMeta := target.fileDoc.safeMeta,
            docName := target.fileDoc.docName, dirID := pdir,
            byteSize := target.fileDoc.byteSize, md5sum := target.fileDoc.md5sum }, body⟩ :=
        fileByID_setFile_self _ _
      refine ⟨rfl, ?_⟩
      rw [← hid]
      exact ⟨_, horig, rfl⟩
    · rw [hout, uploadExistingAccept_move envE current.doc _ body _ _ (by simpa using hpath)
        hm1 hm2 hm3]
      have hmid : (st.setFile ⟨{ current.doc with
            refBy := envE.refBy, safeMeta := target.fileDoc.safeMeta,
            docName := current.doc.docName, dirID := current.doc.dirID,
            byteSize := target.fileDoc.byteSize, md5sum := target.fileDoc.md5sum }, body⟩).fileByID current.doc.docID =
          some ⟨{ current.doc with
            refBy := envE.refBy, safeMeta := target.fileDoc.safeMeta,
            docName := current.doc.docName, dirID := current.doc.dirID,
            byteSize := target.fileDoc.byteSize, md5sum := target.fileDoc.md5sum }, body⟩ :=
        fileByID_setFile_self _ _
      have horig : ((st.setFile ⟨{ current.doc with
            refBy := envE.refBy, safeMeta := target.fileDoc.safeMeta,
            docName := current.doc.docName, dirID := current.doc.dirID,
            byteSize := target.fileDoc.byteSize, md5sum := target.fileDoc.md5sum }, body⟩).updateDoc current.doc.docID
            { current.doc with
            refBy := envE.refBy, safeMeta := target.fileDoc.safeMeta,
            docName := target.fileDoc.docName, dirID := pdir,
            byteSize := target.fileDoc.byteSize, md5sum := target.fileDoc.md5sum }).fileByID current.doc.docID =
          some ⟨{ current.doc with
            refBy := envE.refBy, safeMeta := target.fileDoc.safeMeta,
            docName := target.fileDoc.docName, dirID := pdir,
            byteSize := target.fileDoc.byteSize, md5sum := target.fileDoc.md5sum }, body⟩ := by
        have h2 := fileByID_updateDoc_self
          (st.setFile ⟨{ current.doc with
            refBy := envE.refBy, safeMeta := target.fileDoc.safeMeta,
            docName := current.doc.docName, dirID := current.doc.dirID,
            byteSize := target.fileDoc.byteSize, md5sum := target.fileDoc.md5sum }, body⟩) current.doc.docID { current.doc with
            refBy := envE.refBy, safeMeta := target.fileDoc.safeMeta,
            docName := target.fileDoc.docName, dirID := pdir,
            byteSize := target.fileDoc.byteSize, md5sum := target.fileDoc.md5sum } rfl
        rw [h2, hmid]
        rfl
      refine ⟨rfl, ?_⟩
      rw [← hid]
      exact ⟨_, horig, rfl⟩


/-- Witness for C1 at concrete inputs: a lost conflict (local revision `2-x`
against remote chain `1-a, 2-b`) and the no-conflict case. -/
theorem uploadExistingFile_conflicts_witness :
    ((uploadExistingFile wSharing wUpEnv [wRefKnown] wStLost wTarget wCurLost [1, 2]).1 =
        none ∧
      (uploadExistingFile wSharing wUpEnv [wRefKnown] wStLost wTarget wCurLost
          [1, 2]).2.1.fileByID wTarget.fileDoc.docID =
        wStLost.fileByID wTarget.fileDoc.docID ∧
      ∃ vf, (uploadExistingFile wSharing wUpEnv [wRefKnown] wStLost wTarget wCurLost
          [1, 2]).2.1.fileByID (conflictID wTarget.fileDoc.docID wTarget.rev) = some vf ∧
        vf.content = [1, 2] ∧ vf.doc.docName = conflictName wTarget.fileDoc.docName) ∧
    ((uploadExistingFile wSharing wUpEnv [wRefKnown] wSt wTarget wCur [1, 2]).1 = none ∧
      ∃ vf, (uploadExistingFile wSharing wUpEnv [wRefKnown] wSt wTarget wCur
          [1, 2]).2.1.fileByID wTarget.fileDoc.docID = some vf ∧ vf.content = [1, 2]) := by
  constructor
  · exact (uploadExistingFile_conflicts wSharing wUpEnv [wRefKnown] wStLost wTarget wCurLost
      [1, 2] wRefKnown ⟨0, true, false, false⟩ "dir" (by decide) (by decide) (by decide)
      (by decide) rfl).1 (by decide) (by decide) rfl rfl
  · exact (uploadExistingFile_conflicts wSharing wUpEnv [wRefKnown] wSt wTarget wCur
      [1, 2] wRefKnown ⟨0, true, false, false⟩ "dir" (by decide) (by decide) (by decide)
      (by decide) rfl).2.2 (by decide) rfl rfl rfl rfl rfl


theorem uploadWonConflict_shape (env : WonEnv) (st : VFSState) (src : VFile) :
    (∃ e, uploadWonConflict env st src = (some e, st, [])) ∨
    uploadWonConflict env st src = (none, st, []) ∨
    ∃ dst stw, uploadWonConflict env st src = (none, stw, [.createFile dst none src.content]) := by
  cases hb : st.fileByID (conflictID src.doc.docID src.doc.docRev) with
  | some f => exact Or.inr (Or.inl (by simp [uploadWonConflict, hb]))
  | none =>
    cases h0 : env.wonOpen with
    | some e => exact Or.inl ⟨e, by simp [uploadWonConflict, hb, h0]⟩
    | none =>
      cases h1 : env.wonCreate with
      | some e => exact Or.inl ⟨e, by simp [uploadWonConflict, hb, h0, h1]⟩
      | none =>
        cases h2 : env.wonCopy with
        | some e => exact Or.inl ⟨e, by simp [uploadWonConflict, hb, h0, h1, h2]⟩
        | none =>
          exact Or.inr (Or.inr ⟨{ src.doc with
              docID := conflictID src.doc.docID src.doc.docRev,
              docName := conflictName src.doc.docName },
            st.setFile ⟨{ src.doc with
              docID := conflictID src.doc.docID src.doc.docRev,
              docName := conflictName src.doc.docName }, src.content⟩,
            by simp [uploadWonConflict, hb, h0, h1, h2]⟩)

theorem uploadExistingAccept_order (env : UploadExistingEnv) (olddoc nd1 : FileDoc)
    (body : List Nat) (st1 : VFSState) (tr1 : List FsOp)
    (hpath : ¬ (nd1.docName = olddoc.docName ∧ nd1.dirID = olddoc.dirID))
    (htr1 : ∀ od nd, FsOp.updateFileDoc od nd ∉ tr1) :
    ∀ od nd, FsOp.updateFileDoc od nd ∈ (uploadExistingAccept env olddoc nd1 body st1 tr1).2.2 →
      (env.createTmp = none ∧ env.copyTmp = none) ∧
      ∃ (i j : Nat) (pre : FileDoc), i < j ∧
        (uploadExistingAccept env olddoc nd1 body st1 tr1).2.2[i]? =
          some (FsOp.createFile pre (some olddoc) body) ∧
        pre.docName = olddoc.docName ∧ pre.dirID = olddoc.dirID ∧
        (uploadExistingAccept env olddoc nd1 body st1 tr1).2.2[j]? =
          some (FsOp.updateFileDoc od nd) := by
  intro od nd hmem
  cases h1 : env.createTmp with
  | some e =>
    rw [show (uploadExistingAccept env olddoc nd1 body st1 tr1).2.2 = tr1 from
      by simp [uploadExistingAccept, hpath, h1]] at hmem
    exact absurd hmem (htr1 od nd)
  | none =>
  cases h2 : env.copyTmp with
  | some e =>
    rw [show (uploadExistingAccept env olddoc nd1 body st1 tr1).2.2 = tr1 from
      by simp [uploadExistingAccept, hpath, h1, h2]] at hmem
    exact absurd hmem (htr1 od nd)
  | none =>
  refine ⟨⟨rfl, rfl⟩, ?_⟩
  cases h3 : env.update1 with
  | none =>
    have htr : (uploadExistingAccept env olddoc nd1 body st1 tr1).2.2 =
        tr1 ++ [.createFile { nd1 with docName := olddoc.docName, dirID := olddoc.dirID }
          (some olddoc) body,
          .updateFileDoc { nd1 with docName := olddoc.docName, dirID := olddoc.dirID } nd1] := by
      simp [uploadExistingAccept, hpath, h1, h2, h3]
    rw [htr] at hmem ⊢
    have hmem2 := List.mem_append.mp hmem
    rcases hmem2 with hmem2 | hmem2
    · exact absurd hmem2 (htr1 od nd)
    · simp only [List.mem_cons, List.not_mem_nil, or_false] at hmem2
      rcases hmem2 with hmem2 | hmem2
      · exact absurd hmem2 (by simp)
      · refine ⟨tr1.length, tr1.length + 1,
          { nd1 with docName := olddoc.docName, dirID := olddoc.dirID }, by omega, ?_, rfl, rfl, ?_⟩
        · rw [List.getElem?_append_right (by omega)]
          simp
        · rw [List.getElem?_append_right (by omega)]
          simp [hmem2]
  | some e =>
    by_cases he : e = Err.errExist
    · cases hsp : env.samePath with
      | error e2 =>
        rw [show (uploadExistingAccept env olddoc nd1 body st1 tr1).2.2 =
            tr1 ++ [.createFile { nd1 with docName := olddoc.docName, dirID := olddoc.dirID }
              (some olddoc) body] from
          by simp [uploadExistingAccept, hpath, h1, h2, h3, he, hsp]] at hmem
        rcases List.mem_append.mp hmem with h | h
        · exact absurd h (htr1 od nd)
        · simp at h
      | ok nameOpt =>
        cases h4 : env.update2 with
        | none =>
          have htr : (uploadExistingAccept env olddoc nd1 body st1 tr1).2.2 =
              tr1 ++ [.createFile { nd1 with docName := olddoc.docName, dirID := olddoc.dirID }
                (some olddoc) body,
                .updateFileDoc { nd1 with docName := olddoc.docName, dirID := olddoc.dirID }
                  (match nameOpt with
                    | some name => { nd1 with docName := name }
                    | none => nd1)] := by
            cases nameOpt <;> simp [uploadExistingAccept, hpath, h1, h2, h3, he, hsp, h4]
          rw [htr] at hmem ⊢
          rcases List.mem_append.mp hmem with hmem2 | hmem2
          · exact absurd hmem2 (htr1 od nd)
          · simp only [List.mem_cons, List.not_mem_nil, or_false] at hmem2
            rcases hmem2 with hmem2 | hmem2
            · exact absurd hmem2 (by simp)
            · refine ⟨tr1.length, tr1.length + 1,
                { nd1 with docName := olddoc.docName, dirID := olddoc.dirID },
                by omega, ?_, rfl, rfl, ?_⟩
              · rw [List.getElem?_append_right (by omega)]
                simp
              · rw [List.getElem?_append_right (by omega)]
                simp [hmem2]
        | some e2 =>
          rw [show (uploadExistingAccept env olddoc nd1 body st1 tr1).2.2 =
              tr1 ++ [.createFile { nd1 with docName := olddoc.docName, dirID := olddoc.dirID }
                (some olddoc) body] from
            by cases nameOpt <;>
              simp [uploadExistingAccept, hpath, h1, h2, h3, he, hsp, h4]] at hmem
          rcases List.mem_append.mp hmem with h | h
          · exact absurd h (htr1 od nd)
          · simp at h
    · rw [show (uploadExistingAccept env olddoc nd1 body st1 tr1).2.2 =
          tr1 ++ [.createFile { nd1 with docName := olddoc.docName, dirID := olddoc.dirID }
            (some olddoc) body] from
        by simp [uploadExistingAccept, hpath, h1, h2, h3, he]] at hmem
      rcases List.mem_append.mp hmem with h | h
      · exact absurd h (htr1 od nd)
      · simp at h

/-- C4: in `UploadExistingFile`, when the incoming file's path (name or
parent) differs from the local one, any document update to the new name and
parent in the trace happens only when the content write under the old name
and parent succeeded, and is preceded in the trace by that content write. -/
theorem uploadExistingFile_content_before_rename (s : Sharing)
    (envE : UploadExistingEnv) (sharedDocs : List SharedRef) (st : VFSState)
    (target : FileDocWithRevisions) (current : VFile) (body : List Nat)
    (ref : SharedRef) (infos : SharedInfo) (pdir : String)
    (href : findShared sharedDocs ("io.cozy.files/" ++ target.fileDoc.docID) = some ref)
    (hinfo : ref.findInfo s.sid = some infos)
    (hrem : ¬ (infos.removed = true ∧ infos.dissociated = false))
    (hprep : prepareFileWithAncestors envE.prepare current.doc.dirID target.fileDoc.dirID =
      .ok pdir)
    (hconf : detectConflict current.doc.docRev (revsStructToChain target.revisions) ≠
      .lostConflict)
    (hpath : ¬ (target.fileDoc.docName = current.doc.docName ∧ pdir = current.doc.dirID)) :
    ∀ od nd, FsOp.updateFileDoc od nd ∈
        (uploadExistingFile s envE sharedDocs st target current body).2.2 →
      (envE.createTmp = none ∧ envE.copyTmp = none) ∧
      ∃ (i j : Nat) (pre : FileDoc), i < j ∧
        (uploadExistingFile s envE sharedDocs st target current body).2.2[i]? =
          some (FsOp.createFile pre (some current.doc) body) ∧
        pre.docName = current.doc.docName ∧ pre.dirID = current.doc.dirID ∧
        (uploadExistingFile s envE sharedDocs st target current body).2.2[j]? =
          some (FsOp.updateFileDoc od nd) := by
  have hrem2 : ¬ (infos.removed = true ∧ ¬ infos.dissociated = true) := by
    intro ⟨a, b⟩
    exact hrem ⟨a, by simpa using b⟩
  cases hdc : detectConflict current.doc.docRev (revsStructToChain target.revisions) with
  | lostConflict => exact absurd hdc hconf
  | noConflict =>
    have hout : uploadExistingFile s envE sharedDocs st target current body =
        uploadExistingAccept envE current.doc
          { current.doc with
            refBy := envE.refBy, safeMeta := target.fileDoc.safeMeta,
            docName := target.fileDoc.docName, dirID := pdir,
            byteSize := target.fileDoc.byteSize, md5sum := target.fileDoc.md5sum }
          body st [] := by
      simp [uploadExistingFile, href, hinfo, hrem, hrem2, hprep, hdc]
    rw [hout]
    exact uploadExistingAccept_order envE current.doc _ body st []
      (by simpa using hpath) (by simp)
  | wonConflict =>
    rcases uploadWonConflict_shape envE.won st current with ⟨e, hw⟩ | hw | ⟨dst, stw, hw⟩
    · have hout : (uploadExistingFile s envE sharedDocs st target current body).2.2 = [] := by
        simp [uploadExistingFile, href, hinfo, hrem, hrem2, hprep, hdc, hw]
      intro od nd hmem
      rw [hout] at hmem
      simp at hmem
    · have hout : uploadExistingFile s envE sharedDocs st target current body =
          uploadExistingAccept envE current.doc
            { current.doc with
              refBy := envE.refBy, safeMeta := target.fileDoc.safeMeta,
              docName := target.fileDoc.docName, dirID := pdir,
              byteSize := target.fileDoc.byteSize, md5sum := target.fileDoc.md5sum }
            body st [] := by
        simp [uploadExistingFile, href, hinfo, hrem, hrem2, hprep, hdc, hw]
      rw [hout]
      exact uploadExistingAccept_order envE current.doc _ body st []
        (by simpa using hpath) (by simp)
    · have hout : uploadExistingFile s envE sharedDocs st target current body =
          uploadExistingAccept envE current.doc
            { current.doc with
              refBy := envE.refBy, safeMeta := target.fileDoc.safeMeta,
              docName := target.fileDoc.docName, dirID := pdir,
              byteSize := target.fileDoc.byteSize, md5sum := target.fileDoc.md5sum }
            body stw [.createFile dst none current.content] := by
        simp [uploadExistingFile, href, hinfo, hrem, hrem2, hprep, hdc, hw]
      rw [hout]
      exact uploadExistingAccept_order envE current.doc _ body stw _
        (by simpa using hpath) (by simp)

/-- Witness for C4 at a concrete input: `wDoc` renamed to `hello2.txt` with
new content, no conflict; the trace writes the content under the old name
first and renames afterwards. -/
theorem uploadExistingFile_content_before_rename_witness :
    (wUpEnv.createTmp = none ∧ wUpEnv.copyTmp = none) ∧
    ∃ (i j : Nat) (pre : FileDoc), i < j ∧
      (uploadExistingFile wSharing wUpEnv [wRefKnown] wSt wTargetMoved wCur [1, 2]).2.2[i]? =
        some (FsOp.createFile pre (some wDoc) [1, 2]) ∧
      pre.docName = wDoc.docName ∧ pre.dirID = wDoc.dirID ∧
      (uploadExistingFile wSharing wUpEnv [wRefKnown] wSt wTargetMoved wCur [1, 2]).2.2[j]? =
        some (FsOp.updateFileDoc wDoc { wDoc with docName := "hello2.txt" }) :=
  uploadExistingFile_content_before_rename wSharing wUpEnv [wRefKnown] wSt wTargetMoved
    wCur [1, 2] wRefKnown ⟨0, true, false, false⟩ "dir" (by decide) (by decide) (by decide)
    rfl (by decide) (by decide) wDoc { wDoc with docName := "hello2.txt" } (by decide)


/-- Witness for C6 at a concrete input: the first attempt conflicts, is
reloaded, and the second attempt is made. -/
theorem revokeByNotification_bounded_retry_witness :
    wRevokeEnv.upd 0 = .conflictErr ∧ wRevokeEnv.reloadErr 0 = none :=
  (revokeByNotification_bounded_retry wRevokeEnv wSharingDoc).2.2 0 (by decide)

end CozyStack
